import Mathlib

/-!
Verification of the `SQLQueryExecutionProcess` polling execution controller
(`src/webapp/packages/sql-editor/src/SqlResultTabs/SQLQueryExecutionProcess.ts`).

The controller submits a remote SQL query, polls its status until the remote
reports completion, and supports cooperative cancellation.  The class extends
a generic `Deferred` (from the utils package, outside the given sources), so
the Deferred state machine is modelled from the spec while every controller
method (`start`, `cancel`, `cancelAsync`, `applyResult`, `onError`) is a
direct embedding of the source.

Interaction with the outside world is made explicit:
* an `Env` records the responses the remote returns to the submit call, to
  the k-th status call and to the k-th cancel call;
* a schedule `sched : Nat → Bool` records at which suspension points (awaits)
  a concurrent `cancel()` invocation takes effect — `cancel()` runs between
  awaits of the single-threaded `start` sequence, so scheduling one `cancel`
  per await window covers every interleaving;
* a `Config` carries the controller state together with the trace of remote
  calls and delays performed so far.
-/

namespace SQLQueryExecutionProcess

/-- Modelled from the spec: the `EDeferredState` enumeration of the generic
`Deferred` class (utils package, not part of the given sources).  The spec
lists the five states Pending, Cancelling, Resolved, Rejected, Cancelled. -/
inductive EDeferredState where
  | PENDING
  | CANCELLING
  | RESOLVED
  | REJECTED
  | CANCELLED
deriving DecidableEq, Repr

/-- Modelled from the spec: `isInProgress` of the Deferred class holds exactly
in the states Pending and Cancelling. -/
def EDeferredState.isInProgressState : EDeferredState → Bool
  | .PENDING => true
  | .CANCELLING => true
  | _ => false

/-- Modelled from the spec: `isFinished` of the Deferred class holds exactly
in the terminal states Resolved, Rejected, Cancelled. -/
def EDeferredState.isFinishedState (s : EDeferredState) : Bool :=
  !s.isInProgressState

/-- Errors that flow through the controller: a `ServerInternalError` built
from the remote-reported error, the `Error('Tasks execution returns no
result')` fault, and errors thrown by the transport on a network call. -/
inductive Err where
  | serverInternal (message : String)
  | noResult
  | network (message : String)
deriving DecidableEq, Repr

/-- The `AsyncTaskInfo` payload of the remote task API: task identifier,
running flag, optional server error, optional result and status message.
`R` abstracts the `SqlExecuteInfo` result payload.  The `error` field is the
remote error object, so the source's truthiness test on it is presence. -/
structure AsyncTaskInfo (R : Type) where
  id : String
  running : Bool
  error : Option String
  result : Option R
  status : Option String
deriving DecidableEq, Repr

/-- The observable state of one controller instance: the Deferred state
machine (state, resolved value, rejection error — modelled from the spec) and
the controller's own fields `taskId`, `isCancelConfirmed` and the pending
delay handle (`timeoutActive`), plus the list of `(error, message)` pairs
handed to `notificationService.logException`. -/
structure ProcState (R : Type) where
  dstate : EDeferredState
  value : Option R
  rejectErr : Option Err
  taskId : Option String
  isCancelConfirmed : Bool
  timeoutActive : Bool
  log : List (Err × String)
deriving DecidableEq, Repr

variable {R : Type}

/-- Modelled from the spec: `toResolved` requires the current state to be
Pending or Cancelling; it records the value and moves to Resolved. -/
def toResolved (st : ProcState R) (v : R) : ProcState R :=
  if st.dstate.isInProgressState then
    { st with dstate := .RESOLVED, value := some v }
  else st

/-- Modelled from the spec: `toRejected` records the error and moves an
in-progress Deferred to Rejected. -/
def toRejected (st : ProcState R) (e : Err) : ProcState R :=
  if st.dstate.isInProgressState then
    { st with dstate := .REJECTED, rejectErr := some e }
  else st

/-- Modelled from the spec: `toCancelling` moves Pending to Cancelling. -/
def toCancelling (st : ProcState R) : ProcState R :=
  if st.dstate = .PENDING then { st with dstate := .CANCELLING } else st

/-- Modelled from the spec: `toCancelled` moves Cancelling to Cancelled. -/
def toCancelled (st : ProcState R) : ProcState R :=
  if st.dstate = .CANCELLING then { st with dstate := .CANCELLED } else st

/-- Modelled from the spec: `toPending` rolls Cancelling back to Pending. -/
def toPending (st : ProcState R) : ProcState R :=
  if st.dstate = .CANCELLING then { st with dstate := .PENDING } else st

/-- `notificationService.logException(error, message)`: the logging
collaborator records the pair and never affects control flow. -/
def logException (st : ProcState R) (e : Err) (message : String) : ProcState R :=
  { st with log := st.log ++ [(e, message)] }

/-- The template literal of `onError`:
`Query execution has been canceled${status ? : status : ''}` — the status
message is appended when it is present and non-empty (string truthiness). -/
def canceledMessage (status : Option String) : String :=
  "Query execution has been canceled" ++
    (match status with
      | some s => if s = "" then "" else ": " ++ s
      | none => "")

/-- `onError` (source lines 149–158): a fault while Cancelling is the expected
side effect of a successful cancellation — move to Cancelled and log the
error as informational; otherwise reject with the error. -/
def onError (st : ProcState R) (error : Err) (status : Option String) : ProcState R :=
  if st.dstate = .CANCELLING then
    logException (toCancelled st) error (canceledMessage status)
  else
    toRejected st error

/-- `applyResult` (source lines 130–147): running → no change; a present
error → `onError` with a `ServerInternalError`; no result → `onError` with
the no-result fault; otherwise resolve with the result. -/
def applyResult (st : ProcState R) (taskInfo : AsyncTaskInfo R) : ProcState R :=
  if taskInfo.running then
    st
  else
    match taskInfo.error with
    | some message => onError st (Err.serverInternal message) taskInfo.status
    | none =>
      match taskInfo.result with
      | none => onError st Err.noResult taskInfo.status
      | some r => toResolved st r

/-- `cancel` (source lines 80–88): a no-op unless the state is Pending;
otherwise move to Cancelling and cancel the pending delay if one is active.
It performs no remote call. -/
def cancel (st : ProcState R) : ProcState R :=
  if st.dstate ≠ .PENDING then
    st
  else
    { (toCancelling st) with timeoutActive := false }

/-- Events observable from outside one run: the remote submit, status and
cancel calls and the inter-poll backoff delay. -/
inductive Event where
  | submitCall
  | statusCall
  | cancelCall
  | delay
deriving DecidableEq, Repr

/-- The environment of one run: the remote's response to the submit call, to
the k-th status call and to the k-th cancel call. -/
structure Env (R : Type) where
  submit : Except Err (AsyncTaskInfo R)
  status : Nat → Except Err (AsyncTaskInfo R)
  cancelResp : Nat → Except Err Unit

/-- A configuration of one run: the controller state, the number of awaits
performed so far (the index into the cancel schedule), the number of status
and of remote cancel calls issued, the trace of events, and whether `start`
has returned. -/
structure Config (R : Type) where
  st : ProcState R
  nAwait : Nat
  nStatus : Nat
  nCancel : Nat
  trace : List Event
  done : Bool
deriving DecidableEq, Repr

/-- One suspension point of the `start` sequence: if the schedule invokes the
concurrent `cancel()` during this await window, its (atomic) effect is
applied to the state; the await index advances. -/
def awaitPoint (sched : Nat → Bool) (c : Config R) : Config R :=
  { c with
    st := if sched c.nAwait then cancel c.st else c.st,
    nAwait := c.nAwait + 1 }

/-- `cancelAsync` (source lines 90–103): a no-op once `isCancelConfirmed`;
otherwise issue the remote cancel call (one await).  On success set
`isCancelConfirmed`; on failure, if the state is still Cancelling, roll it
back to Pending and log the error. -/
def cancelAsync (env : Env R) (sched : Nat → Bool) (c : Config R) : Config R :=
  if c.st.isCancelConfirmed then
    c
  else
    let c1 := awaitPoint sched
      { c with trace := c.trace ++ [Event.cancelCall], nCancel := c.nCancel + 1 }
    match env.cancelResp c.nCancel with
    | Except.ok _ => { c1 with st := { c1.st with isCancelConfirmed := true } }
    | Except.error e =>
      if c1.st.dstate = .CANCELLING then
        { c1 with st := logException (toPending c1.st) e "Failed to cancel async task" }
      else c1

/-- The inter-poll backoff (source lines 68–72): install the cancellable
timeout, await it (one suspension point — a concurrent `cancel()` cancels it,
whose rejection is swallowed), then the handle is gone. -/
def delayStep (sched : Nat → Bool) (c : Config R) : Config R :=
  let c1 := awaitPoint sched
    { c with
      st := { c.st with timeoutActive := true },
      trace := c.trace ++ [Event.delay] }
  { c1 with st := { c1.st with timeoutActive := false } }

/-- The configuration right after the status call await: the call is traced
and counted, and the await window may run a concurrent `cancel()`. -/
def afterStatusCall (sched : Nat → Bool) (c0 : Config R) : Config R :=
  awaitPoint sched
    { c0 with trace := c0.trace ++ [Event.statusCall], nStatus := c0.nStatus + 1 }

/-- The status-check half of a poll-loop iteration (source lines 57–72): the
status call (one await); on success apply the status and return if finished,
on failure log the transient error; in either non-final case run the backoff
delay. -/
def statusStep (env : Env R) (sched : Nat → Bool) (c0 : Config R) : Config R :=
  let c1 := afterStatusCall sched c0
  match env.status c0.nStatus with
  | Except.ok taskInfo =>
    let c2 := { c1 with st := applyResult c1.st taskInfo }
    if c2.st.dstate.isFinishedState then { c2 with done := true } else delayStep sched c2
  | Except.error e =>
    delayStep sched
      { c1 with st := logException c1.st e "Failed to check async task status" }

/-- One iteration of the poll loop (source lines 54–72): the serialized
cancel step when Cancelling, then the status check. -/
def loopBody (env : Env R) (sched : Nat → Bool) (c : Config R) : Config R :=
  statusStep env sched (if c.st.dstate = .CANCELLING then cancelAsync env sched c else c)

/-- The `while (this.isInProgress)` loop of `start` (source lines 53–73),
with fuel bounding the number of iterations modelled. -/
def startLoop (env : Env R) (sched : Nat → Bool) : Nat → Config R → Config R
  | 0, c => c
  | Nat.succ fuel, c =>
    if c.st.dstate.isInProgressState then
      let c1 := loopBody env sched c
      if c1.done then c1 else startLoop env sched fuel c1
    else { c with done := true }

/-- The state of a freshly constructed controller: the Deferred is created
Pending, no task identifier, cancel not confirmed, no pending delay. -/
def initialState : ProcState R :=
  { dstate := .PENDING, value := none, rejectErr := none, taskId := none,
    isCancelConfirmed := false, timeoutActive := false, log := [] }

/-- The initial configuration of a run of `start`. -/
def initialConfig : Config R :=
  { st := initialState, nAwait := 0, nStatus := 0, nCancel := 0,
    trace := [], done := false }

/-- `start` (source lines 32–74): submit the query (one await); on a thrown
submit error route through `onError` and return.  Otherwise apply the
returned status, record the task identifier, run the serialized cancel step
if the user cancelled during submission, return if already finished, and
otherwise enter the poll loop. -/
def start (env : Env R) (sched : Nat → Bool) (fuel : Nat) : Config R :=
  let c1 := awaitPoint sched
    { (initialConfig : Config R) with trace := [Event.submitCall] }
  match env.submit with
  | Except.error e => { c1 with st := onError c1.st e none, done := true }
  | Except.ok taskInfo =>
    let c2 := { c1 with
      st := { (applyResult c1.st taskInfo) with taskId := some taskInfo.id } }
    let c3 := if c2.st.dstate = .CANCELLING then cancelAsync env sched c2 else c2
    if c3.st.dstate.isFinishedState then { c3 with done := true }
    else startLoop env sched fuel c3

/-- Number of occurrences of an event in a trace. -/
def countEv (e : Event) : List Event → Nat
  | [] => 0
  | x :: rest => (if x = e then 1 else 0) + countEv e rest

/-- Scanning check that between any two status calls of a trace there is at
least one delay event; the flag records whether a status call has been seen
with no delay after it yet. -/
def statusSepAux : Bool → List Event → Bool
  | _, [] => true
  | seen, Event.statusCall :: rest => !seen && statusSepAux true rest
  | _, Event.delay :: rest => statusSepAux false rest
  | seen, _ :: rest => statusSepAux seen rest

/-- Consecutive status calls of the trace are separated by a backoff delay. -/
def statusSeparated (t : List Event) : Bool :=
  statusSepAux false t

/-- The shape of the trace appended by a poll loop that observes `j` running
statuses and then a final status: each iteration contributes an optional
serialized cancel call, the status call, and (except for the final
iteration) the backoff delay. -/
inductive GoodExt : Nat → List Event → Prop where
  | lastPlain : GoodExt 0 [Event.statusCall]
  | lastCancel : GoodExt 0 [Event.cancelCall, Event.statusCall]
  | stepPlain {j : Nat} {ext : List Event} :
      GoodExt j ext → GoodExt (j + 1) (Event.statusCall :: Event.delay :: ext)
  | stepCancel {j : Nat} {ext : List Event} :
      GoodExt j ext →
      GoodExt (j + 1) (Event.cancelCall :: Event.statusCall :: Event.delay :: ext)

/-! ### Basic lemmas about the state operations -/

theorem cancel_eq (st : ProcState R) :
    cancel st = if st.dstate = .PENDING then
      { st with dstate := .CANCELLING, timeoutActive := false } else st := by
  by_cases h : st.dstate = .PENDING <;> simp [cancel, toCancelling, h]

theorem cancel_of_not_pending {st : ProcState R} (h : st.dstate ≠ .PENDING) :
    cancel st = st := by
  rw [cancel_eq]; simp [h]

theorem cancel_of_cancelling {st : ProcState R} (h : st.dstate = .CANCELLING) :
    cancel st = st := by
  refine cancel_of_not_pending ?_
  rw [h]; intro hc; cases hc

theorem cancel_isCancelConfirmed (st : ProcState R) :
    (cancel st).isCancelConfirmed = st.isCancelConfirmed := by
  rw [cancel_eq]; split <;> rfl

theorem cancel_log (st : ProcState R) : (cancel st).log = st.log := by
  rw [cancel_eq]; split <;> rfl

theorem cancel_dstate_ne_pending (st : ProcState R) :
    (cancel st).dstate ≠ .PENDING := by
  rw [cancel_eq]
  by_cases h : st.dstate = .PENDING <;> simp [h]

theorem cancel_inProgress {st : ProcState R}
    (h : st.dstate.isInProgressState = true) :
    (cancel st).dstate.isInProgressState = true := by
  rw [cancel_eq]
  split
  · rfl
  · exact h

theorem cancel_dstate_cancelling {st : ProcState R}
    (h : (cancel st).dstate = .CANCELLING) :
    st.dstate = .PENDING ∨ st.dstate = .CANCELLING := by
  rw [cancel_eq] at h
  by_cases hp : st.dstate = .PENDING
  · exact Or.inl hp
  · simp [hp] at h; exact Or.inr h

theorem toCancelled_dstate {st : ProcState R} (h : st.dstate = .CANCELLING) :
    (toCancelled st).dstate = .CANCELLED := by
  simp [toCancelled, h]

theorem toCancelled_isCancelConfirmed (st : ProcState R) :
    (toCancelled st).isCancelConfirmed = st.isCancelConfirmed := by
  unfold toCancelled; split <;> rfl

theorem toCancelled_rejectErr (st : ProcState R) :
    (toCancelled st).rejectErr = st.rejectErr := by
  unfold toCancelled; split <;> rfl

theorem toCancelled_log (st : ProcState R) : (toCancelled st).log = st.log := by
  unfold toCancelled; split <;> rfl

theorem toPending_dstate {st : ProcState R} (h : st.dstate = .CANCELLING) :
    (toPending st).dstate = .PENDING := by
  simp [toPending, h]

theorem toPending_isCancelConfirmed (st : ProcState R) :
    (toPending st).isCancelConfirmed = st.isCancelConfirmed := by
  unfold toPending; split <;> rfl

theorem toPending_log (st : ProcState R) : (toPending st).log = st.log := by
  unfold toPending; split <;> rfl

theorem toResolved_dstate {st : ProcState R}
    (h : st.dstate.isInProgressState = true) (v : R) :
    (toResolved st v).dstate = .RESOLVED ∧ (toResolved st v).value = some v := by
  simp [toResolved, h]

theorem toResolved_isCancelConfirmed (st : ProcState R) (v : R) :
    (toResolved st v).isCancelConfirmed = st.isCancelConfirmed := by
  unfold toResolved; split <;> rfl

theorem toResolved_log (st : ProcState R) (v : R) :
    (toResolved st v).log = st.log := by
  unfold toResolved; split <;> rfl

theorem toResolved_pending {st : ProcState R} {v : R}
    (h : (toResolved st v).dstate = .PENDING) : st.dstate = .PENDING := by
  unfold toResolved at h
  split at h
  · cases h
  · exact h

theorem toResolved_cancelling {st : ProcState R} {v : R}
    (h : (toResolved st v).dstate = .CANCELLING) : st.dstate = .CANCELLING := by
  unfold toResolved at h
  split at h
  · cases h
  · exact h

theorem toRejected_dstate {st : ProcState R}
    (h : st.dstate.isInProgressState = true) (e : Err) :
    (toRejected st e).dstate = .REJECTED ∧ (toRejected st e).rejectErr = some e := by
  simp [toRejected, h]

theorem toRejected_isCancelConfirmed (st : ProcState R) (e : Err) :
    (toRejected st e).isCancelConfirmed = st.isCancelConfirmed := by
  unfold toRejected; split <;> rfl

theorem toRejected_log (st : ProcState R) (e : Err) :
    (toRejected st e).log = st.log := by
  unfold toRejected; split <;> rfl

theorem logException_dstate (st : ProcState R) (e : Err) (m : String) :
    (logException st e m).dstate = st.dstate := rfl

theorem logException_isCancelConfirmed (st : ProcState R) (e : Err) (m : String) :
    (logException st e m).isCancelConfirmed = st.isCancelConfirmed := rfl

theorem logException_log (st : ProcState R) (e : Err) (m : String) :
    (logException st e m).log = st.log ++ [(e, m)] := rfl

/-! ### Lemmas about `onError` and `applyResult` -/

theorem onError_of_cancelling {st : ProcState R} (h : st.dstate = .CANCELLING)
    (e : Err) (status : Option String) :
    onError st e status = logException (toCancelled st) e (canceledMessage status) := by
  simp [onError, h]

theorem onError_of_not_cancelling {st : ProcState R} (h : st.dstate ≠ .CANCELLING)
    (e : Err) (status : Option String) :
    onError st e status = toRejected st e := by
  simp [onError, h]

theorem onError_cancelling_spec {st : ProcState R} (h : st.dstate = .CANCELLING)
    (e : Err) (status : Option String) :
    (onError st e status).dstate = .CANCELLED ∧
    (onError st e status).rejectErr = st.rejectErr ∧
    (onError st e status).log = st.log ++ [(e, canceledMessage status)] := by
  rw [onError_of_cancelling h]
  refine ⟨?_, ?_, ?_⟩
  · rw [logException_dstate, toCancelled_dstate h]
  · show (toCancelled st).rejectErr = st.rejectErr
    exact toCancelled_rejectErr st
  · rw [logException_log, toCancelled_log]

theorem onError_dstate_ne_cancelling (st : ProcState R) (e : Err)
    (status : Option String) : (onError st e status).dstate ≠ .CANCELLING := by
  by_cases h : st.dstate = .CANCELLING
  · rw [(onError_cancelling_spec h e status).1]; intro hc; cases hc
  · rw [onError_of_not_cancelling h, toRejected]
    split
    · intro hc; cases hc
    · exact h

theorem onError_dstate_ne_pending (st : ProcState R) (e : Err)
    (status : Option String) : (onError st e status).dstate ≠ .PENDING := by
  by_cases h : st.dstate = .CANCELLING
  · rw [(onError_cancelling_spec h e status).1]; intro hc; cases hc
  · rw [onError_of_not_cancelling h, toRejected]
    split
    · intro hc; cases hc
    · intro hp
      rename_i hip
      rw [hp] at hip
      exact hip rfl

theorem onError_finished {st : ProcState R}
    (h : st.dstate.isInProgressState = true) (e : Err) (status : Option String) :
    (onError st e status).dstate.isFinishedState = true := by
  by_cases hc : st.dstate = .CANCELLING
  · rw [(onError_cancelling_spec hc e status).1]; rfl
  · rw [onError_of_not_cancelling hc]
    unfold toRejected
    simp only [h]
    rfl

theorem onError_isCancelConfirmed (st : ProcState R) (e : Err)
    (status : Option String) :
    (onError st e status).isCancelConfirmed = st.isCancelConfirmed := by
  unfold onError
  split
  · rw [logException_isCancelConfirmed, toCancelled_isCancelConfirmed]
  · exact toRejected_isCancelConfirmed st e

theorem onError_log_mono (st : ProcState R) (e : Err) (status : Option String) :
    ∃ l, (onError st e status).log = st.log ++ l := by
  unfold onError
  split
  · exact ⟨[(e, canceledMessage status)], by rw [logException_log, toCancelled_log]⟩
  · exact ⟨[], by rw [toRejected_log, List.append_nil]⟩

theorem applyResult_running {st : ProcState R} {t : AsyncTaskInfo R}
    (h : t.running = true) : applyResult st t = st := by
  simp [applyResult, h]

theorem applyResult_error {st : ProcState R} {t : AsyncTaskInfo R} {m : String}
    (h : t.running = false) (he : t.error = some m) :
    applyResult st t = onError st (Err.serverInternal m) t.status := by
  simp [applyResult, h, he]

theorem applyResult_noResult {st : ProcState R} {t : AsyncTaskInfo R}
    (h : t.running = false) (he : t.error = none) (hr : t.result = none) :
    applyResult st t = onError st Err.noResult t.status := by
  simp [applyResult, h, he, hr]

theorem applyResult_resolve {st : ProcState R} {t : AsyncTaskInfo R} {r : R}
    (h : t.running = false) (he : t.error = none) (hr : t.result = some r) :
    applyResult st t = toResolved st r := by
  simp [applyResult, h, he, hr]

theorem applyResult_isCancelConfirmed (st : ProcState R) (t : AsyncTaskInfo R) :
    (applyResult st t).isCancelConfirmed = st.isCancelConfirmed := by
  unfold applyResult
  split
  · rfl
  · rcases he : t.error with _ | m
    · rcases hr : t.result with _ | r
      · simp [he, hr, onError_isCancelConfirmed]
      · simp [he, hr, toResolved_isCancelConfirmed]
    · simp [he, onError_isCancelConfirmed]

theorem applyResult_pending {st : ProcState R} {t : AsyncTaskInfo R}
    (h : (applyResult st t).dstate = .PENDING) : st.dstate = .PENDING := by
  unfold applyResult at h
  split at h
  · exact h
  · rcases he : t.error with _ | m
    · rcases hr : t.result with _ | r
      · rw [he, hr] at h
        exact absurd h (onError_dstate_ne_pending st Err.noResult t.status)
      · rw [he, hr] at h
        exact toResolved_pending h
    · rw [he] at h
      exact absurd h (onError_dstate_ne_pending st (Err.serverInternal m) t.status)

theorem applyResult_cancelling {st : ProcState R} {t : AsyncTaskInfo R}
    (h : (applyResult st t).dstate = .CANCELLING) : st.dstate = .CANCELLING := by
  unfold applyResult at h
  split at h
  · exact h
  · rcases he : t.error with _ | m
    · rcases hr : t.result with _ | r
      · rw [he, hr] at h
        exact absurd h (onError_dstate_ne_cancelling st Err.noResult t.status)
      · rw [he, hr] at h
        exact toResolved_cancelling h
    · rw [he] at h
      exact absurd h (onError_dstate_ne_cancelling st (Err.serverInternal m) t.status)

theorem applyResult_log_mono (st : ProcState R) (t : AsyncTaskInfo R) :
    ∃ l, (applyResult st t).log = st.log ++ l := by
  unfold applyResult
  split
  · exact ⟨[], by rw [List.append_nil]⟩
  · rcases he : t.error with _ | m
    · rcases hr : t.result with _ | r
      · simpa using onError_log_mono st Err.noResult t.status
      · exact ⟨[], by rw [toResolved_log, List.append_nil]⟩
    · simpa using onError_log_mono st (Err.serverInternal m) t.status

/-! ### Lemmas about the run-level steps -/

theorem countEv_append (e : Event) (l1 l2 : List Event) :
    countEv e (l1 ++ l2) = countEv e l1 + countEv e l2 := by
  induction l1 with
  | nil => simp [countEv]
  | cons x xs ih => simp [countEv, ih, Nat.add_assoc]

theorem awaitPoint_st (sched : Nat → Bool) (c : Config R) :
    (awaitPoint sched c).st = if sched c.nAwait then cancel c.st else c.st := rfl

theorem awaitPoint_trace (sched : Nat → Bool) (c : Config R) :
    (awaitPoint sched c).trace = c.trace := rfl

theorem awaitPoint_nStatus (sched : Nat → Bool) (c : Config R) :
    (awaitPoint sched c).nStatus = c.nStatus := rfl

theorem awaitPoint_nCancel (sched : Nat → Bool) (c : Config R) :
    (awaitPoint sched c).nCancel = c.nCancel := rfl

theorem awaitPoint_done (sched : Nat → Bool) (c : Config R) :
    (awaitPoint sched c).done = c.done := rfl

theorem ifCancel_inProgress {st : ProcState R} (b : Bool)
    (h : st.dstate.isInProgressState = true) :
    (if b then cancel st else st).dstate.isInProgressState = true := by
  cases b
  · simpa using h
  · simpa using cancel_inProgress h

theorem ifCancel_isCancelConfirmed (st : ProcState R) (b : Bool) :
    (if b then cancel st else st).isCancelConfirmed = st.isCancelConfirmed := by
  cases b
  · rfl
  · simpa using cancel_isCancelConfirmed st

theorem ifCancel_log (st : ProcState R) (b : Bool) :
    (if b then cancel st else st).log = st.log := by
  cases b
  · rfl
  · simpa using cancel_log st

theorem ifCancel_pending {st : ProcState R} {b : Bool}
    (h : (if b then cancel st else st).dstate = .PENDING) :
    st.dstate = .PENDING := by
  cases b
  · simpa using h
  · simp at h
    exact absurd h (cancel_dstate_ne_pending st)

theorem ifCancel_of_cancelling {st : ProcState R} (b : Bool)
    (h : st.dstate = .CANCELLING) :
    (if b then cancel st else st) = st := by
  cases b
  · rfl
  · simpa using cancel_of_cancelling h

theorem cancelAsync_of_confirmed (env : Env R) (sched : Nat → Bool)
    {c : Config R} (h : c.st.isCancelConfirmed = true) :
    cancelAsync env sched c = c := by
  simp [cancelAsync, h]

theorem cancelAsync_nStatus (env : Env R) (sched : Nat → Bool) (c : Config R) :
    (cancelAsync env sched c).nStatus = c.nStatus := by
  unfold cancelAsync
  split
  · rfl
  · split
    · rfl
    · dsimp only
      split <;> rfl

theorem cancelAsync_done (env : Env R) (sched : Nat → Bool) (c : Config R) :
    (cancelAsync env sched c).done = c.done := by
  unfold cancelAsync
  split
  · rfl
  · split
    · rfl
    · dsimp only
      split <;> rfl

theorem cancelAsync_trace_of_not_confirmed (env : Env R) (sched : Nat → Bool)
    {c : Config R} (h : c.st.isCancelConfirmed = false) :
    (cancelAsync env sched c).trace = c.trace ++ [Event.cancelCall] ∧
    (cancelAsync env sched c).nCancel = c.nCancel + 1 := by
  unfold cancelAsync
  rw [h]
  simp only [Bool.false_eq_true, if_false]
  split
  · exact ⟨rfl, rfl⟩
  · split <;> exact ⟨rfl, rfl⟩

theorem cancelAsync_trace_shape (env : Env R) (sched : Nat → Bool) (c : Config R) :
    ∃ pre, (cancelAsync env sched c).trace = c.trace ++ pre ∧
      (pre = [] ∨ pre = [Event.cancelCall]) ∧
      countEv Event.cancelCall pre + c.nCancel = (cancelAsync env sched c).nCancel := by
  by_cases h : c.st.isCancelConfirmed = true
  · refine ⟨[], ?_, Or.inl rfl, ?_⟩ <;>
      simp [cancelAsync_of_confirmed env sched h, countEv]
  · have h' : c.st.isCancelConfirmed = false := by
      revert h; cases c.st.isCancelConfirmed <;> simp
    obtain ⟨ht, hn⟩ := cancelAsync_trace_of_not_confirmed env sched h'
    exact ⟨[Event.cancelCall], ht, Or.inr rfl, by simp [countEv, hn, Nat.add_comm]⟩

theorem cancelAsync_count (env : Env R) (sched : Nat → Bool) {c : Config R}
    (h : countEv Event.cancelCall c.trace = c.nCancel) :
    countEv Event.cancelCall (cancelAsync env sched c).trace
      = (cancelAsync env sched c).nCancel := by
  obtain ⟨pre, ht, _, hn⟩ := cancelAsync_trace_shape env sched c
  rw [ht, countEv_append, h, Nat.add_comm, hn]

theorem cancelAsync_inProgress (env : Env R) (sched : Nat → Bool) {c : Config R}
    (h : c.st.dstate.isInProgressState = true) :
    (cancelAsync env sched c).st.dstate.isInProgressState = true := by
  unfold cancelAsync
  split
  · exact h
  · have h1 : ((awaitPoint sched
        { c with trace := c.trace ++ [Event.cancelCall],
                 nCancel := c.nCancel + 1 }).st).dstate.isInProgressState = true := by
      rw [awaitPoint_st]
      exact ifCancel_inProgress _ h
    split
    · exact h1
    · dsimp only
      split
      · rename_i hc
        show ((logException (toPending _) _ _).dstate).isInProgressState = true
        rw [logException_dstate, toPending_dstate hc]
        rfl
      · exact h1

theorem cancelAsync_cancelling_ok (env : Env R) (sched : Nat → Bool)
    {c : Config R} (hd : c.st.dstate = .CANCELLING)
    (hcf : c.st.isCancelConfirmed = false)
    (hok : env.cancelResp c.nCancel = Except.ok ()) :
    (cancelAsync env sched c).st.dstate = .CANCELLING ∧
    (cancelAsync env sched c).st.isCancelConfirmed = true := by
  unfold cancelAsync
  rw [hcf]
  simp only [Bool.false_eq_true, if_false, hok]
  constructor
  · show ((awaitPoint sched _).st).dstate = .CANCELLING
    rw [awaitPoint_st]
    show (if sched c.nAwait then cancel c.st else c.st).dstate = .CANCELLING
    rw [ifCancel_of_cancelling _ hd]
    exact hd
  · trivial

theorem cancelAsync_cancelling_fail (env : Env R) (sched : Nat → Bool)
    {c : Config R} {e : Err} (hd : c.st.dstate = .CANCELLING)
    (hcf : c.st.isCancelConfirmed = false)
    (hfail : env.cancelResp c.nCancel = Except.error e) :
    (cancelAsync env sched c).st.dstate = .PENDING ∧
    (cancelAsync env sched c).st.isCancelConfirmed = false ∧
    (cancelAsync env sched c).st.log
      = c.st.log ++ [(e, "Failed to cancel async task")] := by
  unfold cancelAsync
  rw [hcf]
  simp only [Bool.false_eq_true, if_false, hfail]
  have hst : (awaitPoint sched
      { c with trace := c.trace ++ [Event.cancelCall],
               nCancel := c.nCancel + 1 }).st = c.st := by
    rw [awaitPoint_st]
    exact ifCancel_of_cancelling _ hd
  rw [hst]
  simp only [hd, if_pos]
  refine ⟨?_, ?_, ?_⟩
  · rw [logException_dstate, toPending_dstate hd]
  · rw [logException_isCancelConfirmed, toPending_isCancelConfirmed]
    exact hcf
  · rw [logException_log, toPending_log]

theorem cancelAsync_log_mono (env : Env R) (sched : Nat → Bool) (c : Config R) :
    ∃ l, (cancelAsync env sched c).st.log = c.st.log ++ l := by
  unfold cancelAsync
  have h1 : (awaitPoint sched
      { c with trace := c.trace ++ [Event.cancelCall],
               nCancel := c.nCancel + 1 }).st.log = c.st.log := by
    rw [awaitPoint_st]
    exact ifCancel_log _ _
  split
  · exact ⟨[], by rw [List.append_nil]⟩
  · split
    · exact ⟨[], by simp [h1]⟩
    · dsimp only
      rename_i eVal heq
      split
      · refine ⟨[(eVal, "Failed to cancel async task")], ?_⟩
        show (logException (toPending _) _ _).log = _
        rw [logException_log, toPending_log, h1]
      · exact ⟨[], by simp [h1]⟩

/-- Upper bound on the number of remote cancel calls a run can still reach
when every remote cancel request succeeds: once `isCancelConfirmed` holds no
further call is issued, before that at most one more is. -/
def cancelBound (c : Config R) : Nat :=
  if c.st.isCancelConfirmed then c.nCancel else c.nCancel + 1

theorem nCancel_le_cancelBound (c : Config R) : c.nCancel ≤ cancelBound c := by
  unfold cancelBound
  split
  · exact Nat.le_refl _
  · exact Nat.le_succ _

theorem cancelBound_mono_of_eq {c c' : Config R}
    (hn : c'.nCancel = c.nCancel)
    (hcf : c'.st.isCancelConfirmed = c.st.isCancelConfirmed) :
    cancelBound c' = cancelBound c := by
  unfold cancelBound
  rw [hn, hcf]

theorem cancelAsync_cancelBound (env : Env R) (sched : Nat → Bool) {c : Config R}
    (hok : env.cancelResp c.nCancel = Except.ok ()) :
    cancelBound (cancelAsync env sched c) ≤ cancelBound c := by
  by_cases h : c.st.isCancelConfirmed = true
  · rw [cancelAsync_of_confirmed env sched h]
  · have h' : c.st.isCancelConfirmed = false := by
      revert h; cases c.st.isCancelConfirmed <;> simp
    unfold cancelAsync
    rw [h']
    simp only [Bool.false_eq_true, if_false, hok]
    simp [cancelBound, h']
    exact Nat.le_refl _

theorem delayStep_trace (sched : Nat → Bool) (c : Config R) :
    (delayStep sched c).trace = c.trace ++ [Event.delay] := rfl

theorem delayStep_nStatus (sched : Nat → Bool) (c : Config R) :
    (delayStep sched c).nStatus = c.nStatus := rfl

theorem delayStep_nCancel (sched : Nat → Bool) (c : Config R) :
    (delayStep sched c).nCancel = c.nCancel := rfl

theorem delayStep_done (sched : Nat → Bool) (c : Config R) :
    (delayStep sched c).done = c.done := rfl

theorem delayStep_st_isCancelConfirmed (sched : Nat → Bool) (c : Config R) :
    (delayStep sched c).st.isCancelConfirmed = c.st.isCancelConfirmed := by
  show (if sched c.nAwait then cancel { c.st with timeoutActive := true }
      else { c.st with timeoutActive := true }).isCancelConfirmed
    = c.st.isCancelConfirmed
  rw [ifCancel_isCancelConfirmed]

theorem delayStep_st_log (sched : Nat → Bool) (c : Config R) :
    (delayStep sched c).st.log = c.st.log := by
  show (if sched c.nAwait then cancel { c.st with timeoutActive := true }
      else { c.st with timeoutActive := true }).log = c.st.log
  rw [ifCancel_log]

theorem delayStep_st_inProgress (sched : Nat → Bool) {c : Config R}
    (h : c.st.dstate.isInProgressState = true) :
    (delayStep sched c).st.dstate.isInProgressState = true := by
  show (if sched c.nAwait then cancel { c.st with timeoutActive := true }
      else { c.st with timeoutActive := true }).dstate.isInProgressState = true
  exact ifCancel_inProgress _ h

theorem delayStep_st_pending (sched : Nat → Bool) {c : Config R}
    (h : (delayStep sched c).st.dstate = .PENDING) :
    c.st.dstate = .PENDING := by
  have h' : (if sched c.nAwait then cancel { c.st with timeoutActive := true }
      else { c.st with timeoutActive := true }).dstate = .PENDING := h
  have h2 := ifCancel_pending h'
  exact h2

theorem delayStep_st_of_cancelling (sched : Nat → Bool) {c : Config R}
    (h : c.st.dstate = .CANCELLING) :
    (delayStep sched c).st.dstate = .CANCELLING := by
  have h' : ({ c.st with timeoutActive := true } : ProcState R).dstate = .CANCELLING := h
  show (if sched c.nAwait then cancel { c.st with timeoutActive := true }
      else { c.st with timeoutActive := true }).dstate = .CANCELLING
  rw [ifCancel_of_cancelling _ h']
  exact h'

/-! ### Lemmas about one poll-loop iteration -/

theorem afterStatusCall_st (sched : Nat → Bool) (c0 : Config R) :
    (afterStatusCall sched c0).st
      = if sched c0.nAwait then cancel c0.st else c0.st := rfl

theorem afterStatusCall_trace (sched : Nat → Bool) (c0 : Config R) :
    (afterStatusCall sched c0).trace = c0.trace ++ [Event.statusCall] := rfl

theorem afterStatusCall_nStatus (sched : Nat → Bool) (c0 : Config R) :
    (afterStatusCall sched c0).nStatus = c0.nStatus + 1 := rfl

theorem afterStatusCall_nCancel (sched : Nat → Bool) (c0 : Config R) :
    (afterStatusCall sched c0).nCancel = c0.nCancel := rfl

theorem afterStatusCall_done (sched : Nat → Bool) (c0 : Config R) :
    (afterStatusCall sched c0).done = c0.done := rfl

theorem afterStatusCall_st_inProgress (sched : Nat → Bool) {c0 : Config R}
    (hip : c0.st.dstate.isInProgressState = true) :
    (afterStatusCall sched c0).st.dstate.isInProgressState = true := by
  rw [afterStatusCall_st]
  exact ifCancel_inProgress _ hip

theorem afterStatusCall_st_isCancelConfirmed (sched : Nat → Bool) (c0 : Config R) :
    (afterStatusCall sched c0).st.isCancelConfirmed = c0.st.isCancelConfirmed := by
  rw [afterStatusCall_st]
  exact ifCancel_isCancelConfirmed _ _

theorem afterStatusCall_st_log (sched : Nat → Bool) (c0 : Config R) :
    (afterStatusCall sched c0).st.log = c0.st.log := by
  rw [afterStatusCall_st]
  exact ifCancel_log _ _

theorem afterStatusCall_st_of_cancelling (sched : Nat → Bool) {c0 : Config R}
    (hd : c0.st.dstate = .CANCELLING) :
    (afterStatusCall sched c0).st = c0.st := by
  rw [afterStatusCall_st]
  exact ifCancel_of_cancelling _ hd

theorem afterStatusCall_st_pending (sched : Nat → Bool) {c0 : Config R}
    (h : (afterStatusCall sched c0).st.dstate = .PENDING) :
    c0.st.dstate = .PENDING := by
  rw [afterStatusCall_st] at h
  exact ifCancel_pending h

theorem statusStep_error_spec (env : Env R) (sched : Nat → Bool) {c0 : Config R}
    {e : Err} (hip : c0.st.dstate.isInProgressState = true)
    (hs : env.status c0.nStatus = Except.error e) :
    (statusStep env sched c0).st.dstate.isInProgressState = true ∧
    (statusStep env sched c0).nStatus = c0.nStatus + 1 ∧
    (statusStep env sched c0).nCancel = c0.nCancel ∧
    (statusStep env sched c0).done = c0.done ∧
    (statusStep env sched c0).trace = c0.trace ++ [Event.statusCall, Event.delay] ∧
    (statusStep env sched c0).st.isCancelConfirmed = c0.st.isCancelConfirmed ∧
    (statusStep env sched c0).st.log
      = c0.st.log ++ [(e, "Failed to check async task status")] := by
  unfold statusStep
  dsimp only
  rw [hs]
  refine ⟨?_, rfl, rfl, rfl, ?_, ?_, ?_⟩
  · refine delayStep_st_inProgress sched ?_
    show (afterStatusCall sched c0).st.dstate.isInProgressState = true
    exact afterStatusCall_st_inProgress sched hip
  · rw [delayStep_trace]
    show ((afterStatusCall sched c0).trace) ++ [Event.delay] = _
    rw [afterStatusCall_trace]
    simp
  · rw [delayStep_st_isCancelConfirmed]
    show (afterStatusCall sched c0).st.isCancelConfirmed = _
    exact afterStatusCall_st_isCancelConfirmed sched c0
  · rw [delayStep_st_log]
    show (afterStatusCall sched c0).st.log ++ [(e, _)] = _
    rw [afterStatusCall_st_log]

theorem statusStep_error_cancelling (env : Env R) (sched : Nat → Bool)
    {c0 : Config R} {e : Err} (hd : c0.st.dstate = .CANCELLING)
    (hs : env.status c0.nStatus = Except.error e) :
    (statusStep env sched c0).st.dstate = .CANCELLING := by
  unfold statusStep
  dsimp only
  rw [hs]
  refine delayStep_st_of_cancelling sched ?_
  show (afterStatusCall sched c0).st.dstate = .CANCELLING
  rw [afterStatusCall_st_of_cancelling sched hd]
  exact hd

theorem statusStep_running_spec (env : Env R) (sched : Nat → Bool) {c0 : Config R}
    {t : AsyncTaskInfo R} (hip : c0.st.dstate.isInProgressState = true)
    (hs : env.status c0.nStatus = Except.ok t) (hr : t.running = true) :
    (statusStep env sched c0).st.dstate.isInProgressState = true ∧
    (statusStep env sched c0).nStatus = c0.nStatus + 1 ∧
    (statusStep env sched c0).nCancel = c0.nCancel ∧
    (statusStep env sched c0).done = c0.done ∧
    (statusStep env sched c0).trace = c0.trace ++ [Event.statusCall, Event.delay] ∧
    (statusStep env sched c0).st.isCancelConfirmed = c0.st.isCancelConfirmed ∧
    (statusStep env sched c0).st.log = c0.st.log := by
  unfold statusStep
  dsimp only
  rw [hs]
  dsimp only
  rw [applyResult_running hr]
  have hnotfin : ¬((afterStatusCall sched c0).st.dstate.isFinishedState = true) := by
    have h1 := afterStatusCall_st_inProgress sched hip
    unfold EDeferredState.isFinishedState
    simp [h1]
  rw [if_neg hnotfin]
  refine ⟨?_, rfl, rfl, rfl, ?_, ?_, ?_⟩
  · exact delayStep_st_inProgress sched (afterStatusCall_st_inProgress sched hip)
  · rw [delayStep_trace]
    show ((afterStatusCall sched c0).trace) ++ [Event.delay] = _
    rw [afterStatusCall_trace]
    simp
  · rw [delayStep_st_isCancelConfirmed]
    exact afterStatusCall_st_isCancelConfirmed sched c0
  · rw [delayStep_st_log]
    exact afterStatusCall_st_log sched c0

theorem statusStep_resolve_spec (env : Env R) (sched : Nat → Bool) {c0 : Config R}
    {t : AsyncTaskInfo R} {r : R} (hip : c0.st.dstate.isInProgressState = true)
    (hs : env.status c0.nStatus = Except.ok t) (hr : t.running = false)
    (he : t.error = none) (hres : t.result = some r) :
    (statusStep env sched c0).st.dstate = .RESOLVED ∧
    (statusStep env sched c0).st.value = some r ∧
    (statusStep env sched c0).nStatus = c0.nStatus + 1 ∧
    (statusStep env sched c0).nCancel = c0.nCancel ∧
    (statusStep env sched c0).done = true ∧
    (statusStep env sched c0).trace = c0.trace ++ [Event.statusCall] := by
  unfold statusStep
  dsimp only
  rw [hs]
  dsimp only
  rw [applyResult_resolve hr he hres]
  have hip1 := afterStatusCall_st_inProgress sched hip
  obtain ⟨hds, hval⟩ := toResolved_dstate hip1 r
  have hfin : (toResolved (afterStatusCall sched c0).st r).dstate.isFinishedState = true := by
    rw [hds]; rfl
  rw [if_pos hfin]
  exact ⟨hds, hval, rfl, rfl, rfl, afterStatusCall_trace sched c0⟩

theorem statusStep_nCancel (env : Env R) (sched : Nat → Bool) (c0 : Config R) :
    (statusStep env sched c0).nCancel = c0.nCancel := by
  unfold statusStep
  dsimp only
  cases hst : env.status c0.nStatus with
  | error e => rfl
  | ok t =>
    dsimp only
    split <;> rfl

theorem statusStep_isCancelConfirmed (env : Env R) (sched : Nat → Bool)
    (c0 : Config R) :
    (statusStep env sched c0).st.isCancelConfirmed = c0.st.isCancelConfirmed := by
  unfold statusStep
  dsimp only
  cases hst : env.status c0.nStatus with
  | error e =>
    dsimp only
    rw [delayStep_st_isCancelConfirmed]
    show (logException (afterStatusCall sched c0).st e _).isCancelConfirmed = _
    rw [logException_isCancelConfirmed]
    exact afterStatusCall_st_isCancelConfirmed sched c0
  | ok t =>
    dsimp only
    split
    · show (applyResult (afterStatusCall sched c0).st t).isCancelConfirmed = _
      rw [applyResult_isCancelConfirmed]
      exact afterStatusCall_st_isCancelConfirmed sched c0
    · rw [delayStep_st_isCancelConfirmed]
      show (applyResult (afterStatusCall sched c0).st t).isCancelConfirmed = _
      rw [applyResult_isCancelConfirmed]
      exact afterStatusCall_st_isCancelConfirmed sched c0

theorem statusStep_count (env : Env R) (sched : Nat → Bool) (c0 : Config R) :
    countEv Event.cancelCall (statusStep env sched c0).trace
      = countEv Event.cancelCall c0.trace := by
  unfold statusStep
  dsimp only
  cases hst : env.status c0.nStatus with
  | error e =>
    dsimp only
    rw [delayStep_trace]
    show countEv _ ((afterStatusCall sched c0).trace ++ [Event.delay]) = _
    rw [afterStatusCall_trace, countEv_append, countEv_append]
    simp [countEv]
  | ok t =>
    dsimp only
    split
    · show countEv _ (afterStatusCall sched c0).trace = _
      rw [afterStatusCall_trace, countEv_append]
      simp [countEv]
    · rw [delayStep_trace]
      show countEv _ ((afterStatusCall sched c0).trace ++ [Event.delay]) = _
      rw [afterStatusCall_trace, countEv_append, countEv_append]
      simp [countEv]

theorem statusStep_trace_shape (env : Env R) (sched : Nat → Bool) (c0 : Config R) :
    ∃ rest, (statusStep env sched c0).trace
      = (c0.trace ++ [Event.statusCall]) ++ rest := by
  unfold statusStep
  dsimp only
  cases hst : env.status c0.nStatus with
  | error e =>
    refine ⟨[Event.delay], ?_⟩
    dsimp only
    rw [delayStep_trace]
    show (afterStatusCall sched c0).trace ++ [Event.delay] = _
    rw [afterStatusCall_trace]
  | ok t =>
    dsimp only
    split
    · exact ⟨[], by simpa using afterStatusCall_trace sched c0⟩
    · refine ⟨[Event.delay], ?_⟩
      rw [delayStep_trace]
      show (afterStatusCall sched c0).trace ++ [Event.delay] = _
      rw [afterStatusCall_trace]

theorem statusStep_done_imp_finished (env : Env R) (sched : Nat → Bool)
    {c0 : Config R} (h : c0.done = false)
    (hd : (statusStep env sched c0).done = true) :
    (statusStep env sched c0).st.dstate.isFinishedState = true := by
  unfold statusStep at hd ⊢
  dsimp only at hd ⊢
  cases hst : env.status c0.nStatus with
  | error e =>
    rw [hst] at hd
    dsimp only at hd
    rw [delayStep_done] at hd
    have hcd : c0.done = true := hd
    rw [h] at hcd
    cases hcd
  | ok t =>
    rw [hst] at hd
    dsimp only at hd ⊢
    by_cases hfin :
        (applyResult (afterStatusCall sched c0).st t).dstate.isFinishedState = true
    · rw [if_pos hfin]
      exact hfin
    · rw [if_neg hfin] at hd
      rw [delayStep_done] at hd
      have hcd : c0.done = true := hd
      rw [h] at hcd
      cases hcd

theorem statusStep_log_mono (env : Env R) (sched : Nat → Bool) (c0 : Config R) :
    ∃ l, (statusStep env sched c0).st.log = c0.st.log ++ l := by
  unfold statusStep
  dsimp only
  cases hst : env.status c0.nStatus with
  | error e =>
    refine ⟨[(e, "Failed to check async task status")], ?_⟩
    dsimp only
    rw [delayStep_st_log]
    show (logException (afterStatusCall sched c0).st e _).log = _
    rw [logException_log, afterStatusCall_st_log]
  | ok t =>
    dsimp only
    obtain ⟨l, hl⟩ := applyResult_log_mono (afterStatusCall sched c0).st t
    refine ⟨l, ?_⟩
    split
    · show (applyResult (afterStatusCall sched c0).st t).log = _
      rw [hl, afterStatusCall_st_log]
    · rw [delayStep_st_log]
      show (applyResult (afterStatusCall sched c0).st t).log = _
      rw [hl, afterStatusCall_st_log]

theorem statusStep_pending (env : Env R) (sched : Nat → Bool) {c0 : Config R}
    (h : (statusStep env sched c0).st.dstate = .PENDING) :
    c0.st.dstate = .PENDING := by
  unfold statusStep at h
  dsimp only at h
  cases hst : env.status c0.nStatus with
  | error e =>
    rw [hst] at h
    dsimp only at h
    have h1 := delayStep_st_pending sched h
    have h2 : (afterStatusCall sched c0).st.dstate = .PENDING := h1
    exact afterStatusCall_st_pending sched h2
  | ok t =>
    rw [hst] at h
    dsimp only at h
    split at h
    · have h1 : (applyResult (afterStatusCall sched c0).st t).dstate = .PENDING := h
      exact afterStatusCall_st_pending sched (applyResult_pending h1)
    · have h1 := delayStep_st_pending sched h
      have h2 : (applyResult (afterStatusCall sched c0).st t).dstate = .PENDING := h1
      exact afterStatusCall_st_pending sched (applyResult_pending h2)

theorem ifCancel_cancelling {st : ProcState R} {b : Bool}
    (h : (if b then cancel st else st).dstate = .CANCELLING) :
    st.dstate = .PENDING ∨ st.dstate = .CANCELLING := by
  cases b
  · simp at h; exact Or.inr h
  · simp at h; exact cancel_dstate_cancelling h

theorem cancelAsync_dstate_cancelling (env : Env R) (sched : Nat → Bool)
    {c : Config R} (h : (cancelAsync env sched c).st.dstate = .CANCELLING) :
    c.st.dstate = .PENDING ∨ c.st.dstate = .CANCELLING := by
  unfold cancelAsync at h
  split at h
  · exact Or.inr h
  · split at h
    · have h1 : (if sched c.nAwait then cancel c.st else c.st).dstate = .CANCELLING := h
      exact ifCancel_cancelling h1
    · dsimp only at h
      split at h
      · have h2 : (toPending _).dstate = EDeferredState.CANCELLING := h
        rename_i hc
        have h3 : ((awaitPoint sched
            { c with trace := c.trace ++ [Event.cancelCall],
                     nCancel := c.nCancel + 1 }).st).dstate = .CANCELLING := hc
        rw [awaitPoint_st] at h3
        exact ifCancel_cancelling h3
      · have h1 : (if sched c.nAwait then cancel c.st else c.st).dstate = .CANCELLING := h
        exact ifCancel_cancelling h1

/-- The configuration at the top of a loop iteration, after the serialized
cancel step has (possibly) run. -/
def cancelPhase (env : Env R) (sched : Nat → Bool) (c : Config R) : Config R :=
  if c.st.dstate = .CANCELLING then cancelAsync env sched c else c

theorem loopBody_eq (env : Env R) (sched : Nat → Bool) (c : Config R) :
    loopBody env sched c = statusStep env sched (cancelPhase env sched c) := rfl

theorem cancelPhase_nStatus (env : Env R) (sched : Nat → Bool) (c : Config R) :
    (cancelPhase env sched c).nStatus = c.nStatus := by
  unfold cancelPhase
  split
  · exact cancelAsync_nStatus env sched c
  · rfl

theorem cancelPhase_done (env : Env R) (sched : Nat → Bool) (c : Config R) :
    (cancelPhase env sched c).done = c.done := by
  unfold cancelPhase
  split
  · exact cancelAsync_done env sched c
  · rfl

theorem cancelPhase_inProgress (env : Env R) (sched : Nat → Bool) {c : Config R}
    (hip : c.st.dstate.isInProgressState = true) :
    (cancelPhase env sched c).st.dstate.isInProgressState = true := by
  unfold cancelPhase
  split
  · exact cancelAsync_inProgress env sched hip
  · exact hip

theorem cancelPhase_trace_shape (env : Env R) (sched : Nat → Bool) (c : Config R) :
    ∃ pre, (cancelPhase env sched c).trace = c.trace ++ pre ∧
      (pre = [] ∨ pre = [Event.cancelCall]) := by
  unfold cancelPhase
  split
  · obtain ⟨pre, h1, h2, _⟩ := cancelAsync_trace_shape env sched c
    exact ⟨pre, h1, h2⟩
  · exact ⟨[], by simp, Or.inl rfl⟩

theorem cancelPhase_log_mono (env : Env R) (sched : Nat → Bool) (c : Config R) :
    ∃ l, (cancelPhase env sched c).st.log = c.st.log ++ l := by
  unfold cancelPhase
  split
  · exact cancelAsync_log_mono env sched c
  · exact ⟨[], by simp⟩

theorem cancelPhase_of_confirmed (env : Env R) (sched : Nat → Bool)
    {c : Config R} (h : c.st.isCancelConfirmed = true) :
    cancelPhase env sched c = c := by
  unfold cancelPhase
  split
  · exact cancelAsync_of_confirmed env sched h
  · rfl

theorem cancelPhase_count (env : Env R) (sched : Nat → Bool) {c : Config R}
    (h : countEv Event.cancelCall c.trace = c.nCancel) :
    countEv Event.cancelCall (cancelPhase env sched c).trace
      = (cancelPhase env sched c).nCancel := by
  unfold cancelPhase
  split
  · exact cancelAsync_count env sched h
  · exact h

theorem cancelPhase_cancelBound (env : Env R) (sched : Nat → Bool) {c : Config R}
    (hok : ∀ k, env.cancelResp k = Except.ok ()) :
    cancelBound (cancelPhase env sched c) ≤ cancelBound c := by
  unfold cancelPhase
  split
  · exact cancelAsync_cancelBound env sched (hok c.nCancel)
  · exact Nat.le_refl _

theorem loopBody_running_spec (env : Env R) (sched : Nat → Bool) {c : Config R}
    {t : AsyncTaskInfo R} (hip : c.st.dstate.isInProgressState = true)
    (hs : env.status c.nStatus = Except.ok t) (hr : t.running = true) :
    (loopBody env sched c).st.dstate.isInProgressState = true ∧
    (loopBody env sched c).nStatus = c.nStatus + 1 ∧
    (loopBody env sched c).done = c.done ∧
    ∃ pre, (pre = [] ∨ pre = [Event.cancelCall]) ∧
      (loopBody env sched c).trace
        = c.trace ++ (pre ++ [Event.statusCall, Event.delay]) := by
  rw [loopBody_eq]
  have hip0 := cancelPhase_inProgress env sched (c := c) hip
  have hs0 : env.status (cancelPhase env sched c).nStatus = Except.ok t := by
    rw [cancelPhase_nStatus]; exact hs
  obtain ⟨h1, h2, _, h4, h5, _, _⟩ := statusStep_running_spec env sched hip0 hs0 hr
  obtain ⟨pre, hpre, hpre2⟩ := cancelPhase_trace_shape env sched c
  refine ⟨h1, ?_, ?_, pre, hpre2, ?_⟩
  · rw [h2, cancelPhase_nStatus]
  · rw [h4, cancelPhase_done]
  · rw [h5, hpre]
    simp

theorem loopBody_resolve_spec (env : Env R) (sched : Nat → Bool) {c : Config R}
    {t : AsyncTaskInfo R} {r : R} (hip : c.st.dstate.isInProgressState = true)
    (hs : env.status c.nStatus = Except.ok t) (hr : t.running = false)
    (he : t.error = none) (hres : t.result = some r) :
    (loopBody env sched c).st.dstate = .RESOLVED ∧
    (loopBody env sched c).st.value = some r ∧
    (loopBody env sched c).nStatus = c.nStatus + 1 ∧
    (loopBody env sched c).done = true ∧
    ∃ pre, (pre = [] ∨ pre = [Event.cancelCall]) ∧
      (loopBody env sched c).trace = c.trace ++ (pre ++ [Event.statusCall]) := by
  rw [loopBody_eq]
  have hip0 := cancelPhase_inProgress env sched (c := c) hip
  have hs0 : env.status (cancelPhase env sched c).nStatus = Except.ok t := by
    rw [cancelPhase_nStatus]; exact hs
  obtain ⟨h1, h2, h3, _, h5, h6⟩ := statusStep_resolve_spec env sched hip0 hs0 hr he hres
  obtain ⟨pre, hpre, hpre2⟩ := cancelPhase_trace_shape env sched c
  refine ⟨h1, h2, ?_, h5, pre, hpre2, ?_⟩
  · rw [h3, cancelPhase_nStatus]
  · rw [h6, hpre]
    simp

theorem loopBody_error_spec (env : Env R) (sched : Nat → Bool) {c : Config R}
    {e : Err} (hip : c.st.dstate.isInProgressState = true)
    (hs : env.status c.nStatus = Except.error e) :
    (loopBody env sched c).st.dstate.isInProgressState = true ∧
    (loopBody env sched c).nStatus = c.nStatus + 1 ∧
    (loopBody env sched c).done = c.done ∧
    (e, "Failed to check async task status") ∈ (loopBody env sched c).st.log ∧
    ∃ pre, (pre = [] ∨ pre = [Event.cancelCall]) ∧
      (loopBody env sched c).trace
        = c.trace ++ (pre ++ [Event.statusCall, Event.delay]) := by
  rw [loopBody_eq]
  have hip0 := cancelPhase_inProgress env sched (c := c) hip
  have hs0 : env.status (cancelPhase env sched c).nStatus = Except.error e := by
    rw [cancelPhase_nStatus]; exact hs
  obtain ⟨h1, h2, _, h4, h5, _, h7⟩ := statusStep_error_spec env sched hip0 hs0
  obtain ⟨pre, hpre, hpre2⟩ := cancelPhase_trace_shape env sched c
  refine ⟨h1, ?_, ?_, ?_, pre, hpre2, ?_⟩
  · rw [h2, cancelPhase_nStatus]
  · rw [h4, cancelPhase_done]
  · rw [h7]
    simp
  · rw [h5, hpre]
    simp

theorem loopBody_done_imp_finished (env : Env R) (sched : Nat → Bool)
    {c : Config R} (h : c.done = false)
    (hd : (loopBody env sched c).done = true) :
    (loopBody env sched c).st.dstate.isFinishedState = true := by
  rw [loopBody_eq] at hd ⊢
  have h0 : (cancelPhase env sched c).done = false := by
    rw [cancelPhase_done]; exact h
  exact statusStep_done_imp_finished env sched h0 hd

theorem loopBody_log_mono (env : Env R) (sched : Nat → Bool) (c : Config R) :
    ∃ l, (loopBody env sched c).st.log = c.st.log ++ l := by
  rw [loopBody_eq]
  obtain ⟨l1, h1⟩ := cancelPhase_log_mono env sched c
  obtain ⟨l2, h2⟩ := statusStep_log_mono env sched (cancelPhase env sched c)
  exact ⟨l1 ++ l2, by rw [h2, h1, List.append_assoc]⟩

theorem loopBody_confirmed (env : Env R) (sched : Nat → Bool) {c : Config R}
    (h : c.st.isCancelConfirmed = true) :
    (loopBody env sched c).nCancel = c.nCancel ∧
    (loopBody env sched c).st.isCancelConfirmed = true ∧
    countEv Event.cancelCall (loopBody env sched c).trace
      = countEv Event.cancelCall c.trace := by
  rw [loopBody_eq, cancelPhase_of_confirmed env sched h]
  refine ⟨statusStep_nCancel env sched c, ?_, statusStep_count env sched c⟩
  rw [statusStep_isCancelConfirmed]
  exact h

theorem loopBody_confirmed_not_pending (env : Env R) (sched : Nat → Bool)
    {c : Config R} (hcf : c.st.isCancelConfirmed = true)
    (hnp : c.st.dstate ≠ .PENDING) :
    (loopBody env sched c).st.isCancelConfirmed = true ∧
    (loopBody env sched c).st.dstate ≠ .PENDING := by
  refine ⟨(loopBody_confirmed env sched hcf).2.1, ?_⟩
  intro hp
  rw [loopBody_eq, cancelPhase_of_confirmed env sched hcf] at hp
  exact hnp (statusStep_pending env sched hp)

theorem loopBody_count (env : Env R) (sched : Nat → Bool) {c : Config R}
    (h : countEv Event.cancelCall c.trace = c.nCancel) :
    countEv Event.cancelCall (loopBody env sched c).trace
      = (loopBody env sched c).nCancel := by
  rw [loopBody_eq, statusStep_count, statusStep_nCancel]
  exact cancelPhase_count env sched h

theorem loopBody_cancelBound (env : Env R) (sched : Nat → Bool) {c : Config R}
    (hok : ∀ k, env.cancelResp k = Except.ok ()) :
    cancelBound (loopBody env sched c) ≤ cancelBound c := by
  rw [loopBody_eq]
  have h1 : cancelBound (statusStep env sched (cancelPhase env sched c))
      = cancelBound (cancelPhase env sched c) :=
    cancelBound_mono_of_eq (statusStep_nCancel env sched _)
      (statusStep_isCancelConfirmed env sched _)
  rw [h1]
  exact cancelPhase_cancelBound env sched hok

theorem loopBody_error_cancelling_confirmed (env : Env R) (sched : Nat → Bool)
    {c : Config R} {e : Err} (hd : c.st.dstate = .CANCELLING)
    (hcf : c.st.isCancelConfirmed = true)
    (hs : env.status c.nStatus = Except.error e) :
    (loopBody env sched c).st.dstate = .CANCELLING ∧
    (loopBody env sched c).trace
      = c.trace ++ [Event.statusCall, Event.delay] ∧
    (loopBody env sched c).st.log
      = c.st.log ++ [(e, "Failed to check async task status")] := by
  rw [loopBody_eq, cancelPhase_of_confirmed env sched hcf]
  have hip : c.st.dstate.isInProgressState = true := by
    rw [hd]; rfl
  obtain ⟨_, _, _, _, h5, _, h7⟩ := statusStep_error_spec env sched hip hs
  exact ⟨statusStep_error_cancelling env sched hd hs, h5, h7⟩

theorem loopBody_cancelling_retry (env : Env R) (sched : Nat → Bool)
    {c : Config R} (hd : c.st.dstate = .CANCELLING)
    (hcf : c.st.isCancelConfirmed = false) :
    (loopBody env sched c).nCancel = c.nCancel + 1 ∧
    ∃ rest, (loopBody env sched c).trace = c.trace ++ (Event.cancelCall :: rest) := by
  rw [loopBody_eq]
  have hcp : cancelPhase env sched c = cancelAsync env sched c := by
    unfold cancelPhase
    rw [if_pos hd]
  obtain ⟨ht, hn⟩ := cancelAsync_trace_of_not_confirmed env sched hcf
  constructor
  · rw [statusStep_nCancel, hcp, hn]
  · obtain ⟨rest, hr⟩ := statusStep_trace_shape env sched (cancelPhase env sched c)
    refine ⟨[Event.statusCall] ++ rest, ?_⟩
    rw [hr, hcp, ht]
    simp

/-! ### Lemmas about the poll loop -/

theorem startLoop_zero (env : Env R) (sched : Nat → Bool) (c : Config R) :
    startLoop env sched 0 c = c := rfl

theorem startLoop_succ (env : Env R) (sched : Nat → Bool) (fuel : Nat)
    (c : Config R) :
    startLoop env sched (fuel + 1) c =
      if c.st.dstate.isInProgressState = true then
        (if (loopBody env sched c).done = true then loopBody env sched c
         else startLoop env sched fuel (loopBody env sched c))
      else { c with done := true } := rfl

theorem startLoop_done_imp_finished (env : Env R) (sched : Nat → Bool) :
    ∀ (fuel : Nat) (c : Config R), c.done = false →
    (startLoop env sched fuel c).done = true →
    (startLoop env sched fuel c).st.dstate.isFinishedState = true := by
  intro fuel
  induction fuel with
  | zero =>
    intro c h hd
    rw [startLoop_zero] at hd
    rw [h] at hd
    cases hd
  | succ fuel ih =>
    intro c h hd
    rw [startLoop_succ] at hd ⊢
    by_cases hip : c.st.dstate.isInProgressState = true
    · rw [if_pos hip] at hd ⊢
      by_cases hbd : (loopBody env sched c).done = true
      · rw [if_pos hbd] at hd ⊢
        exact loopBody_done_imp_finished env sched h hbd
      · rw [if_neg hbd] at hd ⊢
        have hb : (loopBody env sched c).done = false := by
          revert hbd; cases (loopBody env sched c).done <;> simp
        exact ih _ hb hd
    · rw [if_neg hip]
      show c.st.dstate.isFinishedState = true
      unfold EDeferredState.isFinishedState
      revert hip
      cases c.st.dstate.isInProgressState <;> simp

theorem startLoop_log_mono (env : Env R) (sched : Nat → Bool) :
    ∀ (fuel : Nat) (c : Config R),
    ∃ l, (startLoop env sched fuel c).st.log = c.st.log ++ l := by
  intro fuel
  induction fuel with
  | zero =>
    intro c
    exact ⟨[], by rw [startLoop_zero, List.append_nil]⟩
  | succ fuel ih =>
    intro c
    rw [startLoop_succ]
    by_cases hip : c.st.dstate.isInProgressState = true
    · rw [if_pos hip]
      by_cases hbd : (loopBody env sched c).done = true
      · rw [if_pos hbd]
        exact loopBody_log_mono env sched c
      · rw [if_neg hbd]
        obtain ⟨l1, h1⟩ := loopBody_log_mono env sched c
        obtain ⟨l2, h2⟩ := ih (loopBody env sched c)
        exact ⟨l1 ++ l2, by rw [h2, h1, List.append_assoc]⟩
    · rw [if_neg hip]
      exact ⟨[], by rw [List.append_nil]⟩

theorem startLoop_statusError_mem (env : Env R) (sched : Nat → Bool)
    {c : Config R} {e : Err} (fuel : Nat)
    (hip : c.st.dstate.isInProgressState = true)
    (hs : env.status c.nStatus = Except.error e) :
    (e, "Failed to check async task status")
      ∈ (startLoop env sched (fuel + 1) c).st.log := by
  rw [startLoop_succ, if_pos hip]
  obtain ⟨_, _, _, hmem, _⟩ := loopBody_error_spec env sched hip hs
  by_cases hbd : (loopBody env sched c).done = true
  · rw [if_pos hbd]
    exact hmem
  · rw [if_neg hbd]
    obtain ⟨l, hl⟩ := startLoop_log_mono env sched fuel (loopBody env sched c)
    rw [hl]
    exact List.mem_append.mpr (Or.inl hmem)

theorem startLoop_confirmed (env : Env R) (sched : Nat → Bool) :
    ∀ (fuel : Nat) (c : Config R), c.st.isCancelConfirmed = true →
    (startLoop env sched fuel c).nCancel = c.nCancel ∧
    (startLoop env sched fuel c).st.isCancelConfirmed = true ∧
    countEv Event.cancelCall (startLoop env sched fuel c).trace
      = countEv Event.cancelCall c.trace := by
  intro fuel
  induction fuel with
  | zero =>
    intro c h
    rw [startLoop_zero]
    exact ⟨rfl, h, rfl⟩
  | succ fuel ih =>
    intro c h
    rw [startLoop_succ]
    by_cases hip : c.st.dstate.isInProgressState = true
    · rw [if_pos hip]
      obtain ⟨h1, h2, h3⟩ := loopBody_confirmed env sched h
      by_cases hbd : (loopBody env sched c).done = true
      · rw [if_pos hbd]
        exact ⟨h1, h2, h3⟩
      · rw [if_neg hbd]
        obtain ⟨g1, g2, g3⟩ := ih (loopBody env sched c) h2
        exact ⟨by rw [g1, h1], g2, by rw [g3, h3]⟩
    · rw [if_neg hip]
      exact ⟨rfl, h, rfl⟩

theorem startLoop_confirmed_not_pending (env : Env R) (sched : Nat → Bool) :
    ∀ (fuel : Nat) (c : Config R), c.st.isCancelConfirmed = true →
    c.st.dstate ≠ .PENDING →
    (startLoop env sched fuel c).st.isCancelConfirmed = true ∧
    (startLoop env sched fuel c).st.dstate ≠ .PENDING := by
  intro fuel
  induction fuel with
  | zero =>
    intro c h hnp
    rw [startLoop_zero]
    exact ⟨h, hnp⟩
  | succ fuel ih =>
    intro c h hnp
    rw [startLoop_succ]
    by_cases hip : c.st.dstate.isInProgressState = true
    · rw [if_pos hip]
      obtain ⟨h1, h2⟩ := loopBody_confirmed_not_pending env sched h hnp
      by_cases hbd : (loopBody env sched c).done = true
      · rw [if_pos hbd]
        exact ⟨h1, h2⟩
      · rw [if_neg hbd]
        exact ih (loopBody env sched c) h1 h2
    · rw [if_neg hip]
      exact ⟨h, hnp⟩

theorem startLoop_count (env : Env R) (sched : Nat → Bool) :
    ∀ (fuel : Nat) (c : Config R),
    countEv Event.cancelCall c.trace = c.nCancel →
    countEv Event.cancelCall (startLoop env sched fuel c).trace
      = (startLoop env sched fuel c).nCancel := by
  intro fuel
  induction fuel with
  | zero =>
    intro c h
    rw [startLoop_zero]
    exact h
  | succ fuel ih =>
    intro c h
    rw [startLoop_succ]
    by_cases hip : c.st.dstate.isInProgressState = true
    · rw [if_pos hip]
      have h1 := loopBody_count env sched h
      by_cases hbd : (loopBody env sched c).done = true
      · rw [if_pos hbd]
        exact h1
      · rw [if_neg hbd]
        exact ih (loopBody env sched c) h1
    · rw [if_neg hip]
      exact h

theorem startLoop_cancelBound (env : Env R) (sched : Nat → Bool)
    (hok : ∀ k, env.cancelResp k = Except.ok ()) :
    ∀ (fuel : Nat) (c : Config R),
    cancelBound (startLoop env sched fuel c) ≤ cancelBound c := by
  intro fuel
  induction fuel with
  | zero =>
    intro c
    rw [startLoop_zero]
  | succ fuel ih =>
    intro c
    rw [startLoop_succ]
    by_cases hip : c.st.dstate.isInProgressState = true
    · rw [if_pos hip]
      have h1 := loopBody_cancelBound env sched (c := c) hok
      by_cases hbd : (loopBody env sched c).done = true
      · rw [if_pos hbd]
        exact h1
      · rw [if_neg hbd]
        exact Nat.le_trans (ih (loopBody env sched c)) h1
    · rw [if_neg hip]
      exact Nat.le_of_eq (cancelBound_mono_of_eq rfl rfl)

theorem startLoop_resolves (env : Env R) (sched : Nat → Bool) (r : R) :
    ∀ (j : Nat) (c : Config R) (fuel : Nat),
    c.st.dstate.isInProgressState = true →
    c.done = false →
    (∀ i, i < j → ∃ t, env.status (c.nStatus + i) = Except.ok t ∧ t.running = true) →
    (∃ t, env.status (c.nStatus + j) = Except.ok t ∧ t.running = false ∧
        t.error = none ∧ t.result = some r) →
    j + 1 ≤ fuel →
    (startLoop env sched fuel c).st.dstate = .RESOLVED ∧
    (startLoop env sched fuel c).st.value = some r ∧
    (startLoop env sched fuel c).nStatus = c.nStatus + j + 1 ∧
    (startLoop env sched fuel c).done = true ∧
    ∃ ext, GoodExt j ext ∧ (startLoop env sched fuel c).trace = c.trace ++ ext := by
  intro j
  induction j with
  | zero =>
    intro c fuel hip hdone hrun hfin hfuel
    obtain ⟨t, hst, htr, hte, htres⟩ := hfin
    rw [Nat.add_zero] at hst
    obtain ⟨fuel', rfl⟩ : ∃ f, fuel = f + 1 := ⟨fuel - 1, by omega⟩
    rw [startLoop_succ, if_pos hip]
    obtain ⟨h1, h2, h3, h5, pre, hpre, htrace⟩ :=
      loopBody_resolve_spec env sched hip hst htr hte htres
    rw [if_pos h5]
    refine ⟨h1, h2, by rw [h3], h5, pre ++ [Event.statusCall], ?_, htrace⟩
    rcases hpre with rfl | rfl
    · simpa using GoodExt.lastPlain
    · simpa using GoodExt.lastCancel
  | succ j ih =>
    intro c fuel hip hdone hrun hfin hfuel
    obtain ⟨fuel', rfl⟩ : ∃ f, fuel = f + 1 := ⟨fuel - 1, by omega⟩
    obtain ⟨t0, hst0, htr0⟩ := hrun 0 (by omega)
    rw [Nat.add_zero] at hst0
    rw [startLoop_succ, if_pos hip]
    obtain ⟨h1, h2, h3, pre, hpre, htrace⟩ :=
      loopBody_running_spec env sched hip hst0 htr0
    have hdone1 : (loopBody env sched c).done = false := by
      rw [h3]; exact hdone
    have hneg : ¬((loopBody env sched c).done = true) := by
      rw [hdone1]; simp
    rw [if_neg hneg]
    have hrun' : ∀ i, i < j →
        ∃ t, env.status ((loopBody env sched c).nStatus + i) = Except.ok t ∧
          t.running = true := by
      intro i hi
      rw [h2, show c.nStatus + 1 + i = c.nStatus + (i + 1) by omega]
      exact hrun (i + 1) (by omega)
    have hfin' : ∃ t, env.status ((loopBody env sched c).nStatus + j) = Except.ok t ∧
        t.running = false ∧ t.error = none ∧ t.result = some r := by
      rw [h2, show c.nStatus + 1 + j = c.nStatus + (j + 1) by omega]
      exact hfin
    obtain ⟨g1, g2, g3, g4, ext, hgood, hext⟩ :=
      ih (loopBody env sched c) fuel' h1 hdone1 hrun' hfin' (by omega)
    refine ⟨g1, g2, ?_, g4, ?_⟩
    · rw [g3, h2]
      omega
    · refine ⟨pre ++ (Event.statusCall :: Event.delay :: ext), ?_, ?_⟩
      · rcases hpre with rfl | rfl
        · simpa using GoodExt.stepPlain hgood
        · simpa using GoodExt.stepCancel hgood
      · rw [hext, htrace]
        simp

theorem goodExt_count {j : Nat} {ext : List Event} (h : GoodExt j ext) :
    countEv Event.statusCall ext = j + 1 := by
  induction h with
  | lastPlain => rfl
  | lastCancel => rfl
  | stepPlain _ ih => simp [countEv, ih]; omega
  | stepCancel _ ih => simp [countEv, ih]; omega

theorem goodExt_sep {j : Nat} {ext : List Event} (h : GoodExt j ext) :
    statusSepAux false ext = true := by
  induction h with
  | lastPlain => rfl
  | lastCancel => rfl
  | stepPlain _ ih => simpa [statusSepAux] using ih
  | stepCancel _ ih => simpa [statusSepAux] using ih

/-! ### Lemmas about `start` -/

theorem not_finished_of_inProgress {s : EDeferredState}
    (h : s.isInProgressState = true) : ¬(s.isFinishedState = true) := by
  unfold EDeferredState.isFinishedState
  rw [h]
  simp

theorem start_unfold_ok (env : Env R) (sched : Nat → Bool) (fuel : Nat)
    {t0 : AsyncTaskInfo R} (hsub : env.submit = Except.ok t0) :
    start env sched fuel =
      (let c1 := awaitPoint sched
        { (initialConfig : Config R) with trace := [Event.submitCall] };
      let c2 : Config R := { c1 with
        st := { (applyResult c1.st t0) with taskId := some t0.id } };
      let c3 := cancelPhase env sched c2;
      if c3.st.dstate.isFinishedState = true then { c3 with done := true }
      else startLoop env sched fuel c3) := by
  unfold start cancelPhase
  rw [hsub]

theorem start_unfold_error (env : Env R) (sched : Nat → Bool) (fuel : Nat)
    {e : Err} (hsub : env.submit = Except.error e) :
    start env sched fuel =
      (let c1 := awaitPoint sched
        { (initialConfig : Config R) with trace := [Event.submitCall] };
      { c1 with st := onError c1.st e none, done := true }) := by
  unfold start
  rw [hsub]

theorem start_c1_st (sched : Nat → Bool) :
    ((awaitPoint sched
      { (initialConfig : Config R) with trace := [Event.submitCall] }).st)
    = if sched 0 then cancel initialState else initialState := rfl

theorem start_c1_inProgress (sched : Nat → Bool) :
    (awaitPoint sched
      { (initialConfig : Config R)
        with trace := [Event.submitCall] }).st.dstate.isInProgressState = true := by
  rw [start_c1_st]
  exact ifCancel_inProgress _ rfl

theorem start_c1_confirmed (sched : Nat → Bool) :
    (awaitPoint sched
      { (initialConfig : Config R)
        with trace := [Event.submitCall] }).st.isCancelConfirmed = false := by
  rw [start_c1_st]
  rw [ifCancel_isCancelConfirmed]
  rfl

theorem start_done_imp_finished (env : Env R) (sched : Nat → Bool) (fuel : Nat)
    (hd : (start env sched fuel).done = true) :
    (start env sched fuel).st.dstate.isFinishedState = true := by
  cases hsub : env.submit with
  | error e =>
    rw [start_unfold_error env sched fuel hsub]
    dsimp only
    exact onError_finished (start_c1_inProgress sched) e none
  | ok t0 =>
    rw [start_unfold_ok env sched fuel hsub] at hd ⊢
    dsimp only at hd ⊢
    by_cases hfin : (cancelPhase env sched
        { awaitPoint sched { (initialConfig : Config R) with trace := [Event.submitCall] } with
          st := { (applyResult (awaitPoint sched
            { (initialConfig : Config R) with trace := [Event.submitCall] }).st t0) with
              taskId := some t0.id } }).st.dstate.isFinishedState = true
    · rw [if_pos hfin]
      exact hfin
    · rw [if_neg hfin] at hd ⊢
      refine startLoop_done_imp_finished env sched fuel _ ?_ hd
      rw [cancelPhase_done]
      rfl

theorem start_count_nCancel (env : Env R) (sched : Nat → Bool) (fuel : Nat) :
    countEv Event.cancelCall (start env sched fuel).trace
      = (start env sched fuel).nCancel := by
  cases hsub : env.submit with
  | error e =>
    rw [start_unfold_error env sched fuel hsub]
    dsimp only
    rfl
  | ok t0 =>
    rw [start_unfold_ok env sched fuel hsub]
    dsimp only
    have hc2 : countEv Event.cancelCall
        ({ awaitPoint sched { (initialConfig : Config R) with trace := [Event.submitCall] } with
           st := { (applyResult (awaitPoint sched
             { (initialConfig : Config R) with trace := [Event.submitCall] }).st t0) with
               taskId := some t0.id } } : Config R).trace
        = ({ awaitPoint sched { (initialConfig : Config R) with trace := [Event.submitCall] } with
           st := { (applyResult (awaitPoint sched
             { (initialConfig : Config R) with trace := [Event.submitCall] }).st t0) with
               taskId := some t0.id } } : Config R).nCancel := by
      show countEv Event.cancelCall [Event.submitCall] = 0
      rfl
    have h3 := cancelPhase_count env sched hc2
    split
    · exact h3
    · exact startLoop_count env sched fuel _ h3

theorem start_nCancel_le_one (env : Env R) (sched : Nat → Bool) (fuel : Nat)
    (hok : ∀ k, env.cancelResp k = Except.ok ()) :
    (start env sched fuel).nCancel ≤ 1 := by
  cases hsub : env.submit with
  | error e =>
    rw [start_unfold_error env sched fuel hsub]
    dsimp only
    exact Nat.zero_le 1
  | ok t0 =>
    rw [start_unfold_ok env sched fuel hsub]
    dsimp only
    have hb2 : cancelBound
        ({ awaitPoint sched { (initialConfig : Config R) with trace := [Event.submitCall] } with
           st := { (applyResult (awaitPoint sched
             { (initialConfig : Config R) with trace := [Event.submitCall] }).st t0) with
               taskId := some t0.id } } : Config R) = 1 := by
      unfold cancelBound
      have hcf : ({ awaitPoint sched { (initialConfig : Config R) with trace := [Event.submitCall] } with
           st := { (applyResult (awaitPoint sched
             { (initialConfig : Config R) with trace := [Event.submitCall] }).st t0) with
               taskId := some t0.id } } : Config R).st.isCancelConfirmed = false := by
        show (applyResult (awaitPoint sched
          { (initialConfig : Config R)
            with trace := [Event.submitCall] }).st t0).isCancelConfirmed = false
        rw [applyResult_isCancelConfirmed]
        exact start_c1_confirmed sched
      rw [hcf]
      rfl
    have hb3 := cancelPhase_cancelBound env sched
      (c := { awaitPoint sched { (initialConfig : Config R) with trace := [Event.submitCall] } with
           st := { (applyResult (awaitPoint sched
             { (initialConfig : Config R) with trace := [Event.submitCall] }).st t0) with
               taskId := some t0.id } }) hok
    rw [hb2] at hb3
    split
    · exact Nat.le_trans (nCancel_le_cancelBound _) hb3
    · exact Nat.le_trans (Nat.le_trans (nCancel_le_cancelBound _)
        (startLoop_cancelBound env sched hok fuel _)) hb3

/-! ### Concrete fixtures -/

/-- A status result reporting the task still running. -/
def runningInfo : AsyncTaskInfo Nat :=
  { id := "task1", running := true, error := none, result := none, status := none }

/-- A final status result carrying result `r`. -/
def resultInfo (r : Nat) : AsyncTaskInfo Nat :=
  { id := "task1", running := false, error := none, result := some r, status := none }

/-- A final status result reporting the stopped task as a remote error. -/
def stoppedInfo : AsyncTaskInfo Nat :=
  { id := "task1", running := false, error := some "stopped", result := none,
    status := none }

/-- No concurrent cancel invocation at any suspension point. -/
def noCancelSched : Nat → Bool := fun _ => false

/-- A concurrent cancel invocation during the await with the given index. -/
def schedAt (n : Nat) : Nat → Bool := fun k => k = n

/-- A Deferred in the Cancelling state with an assigned task identifier. -/
def cancellingState : ProcState Nat :=
  { dstate := .CANCELLING, value := none, rejectErr := none,
    taskId := some "task1", isCancelConfirmed := false, timeoutActive := false,
    log := [] }

/-- A mid-poll configuration whose Deferred is Cancelling. -/
def cancellingConfig : Config Nat :=
  { st := cancellingState, nAwait := 3, nStatus := 1, nCancel := 0,
    trace := [Event.submitCall, Event.statusCall, Event.delay], done := false }

/-- Remote behaviour of the spec's cancellation scenario: submit running, one
running status, then the remote reports the stopped task as an error; cancel
requests succeed. -/
def cancelOkEnv : Env Nat :=
  { submit := Except.ok runningInfo,
    status := fun k => if k = 0 then Except.ok runningInfo
      else Except.ok stoppedInfo,
    cancelResp := fun _ => Except.ok () }

/-- Remote behaviour of the spec's failed-cancel scenario: cancel requests
fail with a network error, the task later completes with result 9. -/
def cancelFailEnv : Env Nat :=
  { submit := Except.ok runningInfo,
    status := fun k => if k = 0 then Except.ok runningInfo
      else Except.ok (resultInfo 9),
    cancelResp := fun _ => Except.error (Err.network "boom") }

/-- Remote behaviour under which the controller issues two remote cancel
calls: the first cancel request fails, the second succeeds. -/
def cancelRetryEnv : Env Nat :=
  { submit := Except.ok runningInfo,
    status := fun k => if k < 2 then Except.ok runningInfo
      else Except.ok stoppedInfo,
    cancelResp := fun k => if k = 0 then Except.error (Err.network "boom")
      else Except.ok () }

/-- The user cancels during the submit await, and again during the first
backoff delay after the first cancel attempt failed. -/
def cancelRetrySched : Nat → Bool := fun k => k = 0 || k = 3

/-! ### Claim theorems -/

/-- C1: applying a status result obeys the four-case rule: if `running` the
state is unchanged; if not running and the error is set, the unified error
path gets that error and the status message; if not running with no error
and no result, the error path gets the no-result fault and the status
message; if not running with a result present, the result transitions to
Resolved with that value. -/
theorem C1_applyResult_four_cases :
    ∀ (R : Type) (st : ProcState R) (t : AsyncTaskInfo R),
    (t.running = true → applyResult st t = st) ∧
    (∀ m, t.running = false → t.error = some m →
      applyResult st t = onError st (Err.serverInternal m) t.status) ∧
    (t.running = false → t.error = none → t.result = none →
      applyResult st t = onError st Err.noResult t.status) ∧
    (∀ r, t.running = false → t.error = none → t.result = some r →
      applyResult st t = toResolved st r ∧
      (st.dstate.isInProgressState = true →
        (applyResult st t).dstate = .RESOLVED ∧
        (applyResult st t).value = some r)) := by
  intro R st t
  refine ⟨fun h => applyResult_running h,
    fun m h he => applyResult_error h he,
    fun h he hr => applyResult_noResult h he hr,
    fun r h he hr => ⟨applyResult_resolve h he hr, fun hip => ?_⟩⟩
  rw [applyResult_resolve h he hr]
  exact toResolved_dstate hip r

/-- Witness for C1: a finished status with result 5 resolves a pending
Deferred. -/
theorem C1_witness :
    applyResult (initialState : ProcState Nat)
        { id := "task1", running := false, error := none, result := some 5,
          status := none }
      = toResolved initialState 5 ∧
    (applyResult (initialState : ProcState Nat)
        { id := "task1", running := false, error := none, result := some 5,
          status := none }).dstate = EDeferredState.RESOLVED := by
  obtain ⟨h1, h2⟩ := (C1_applyResult_four_cases Nat initialState
      { id := "task1", running := false, error := none, result := some 5,
        status := none }).2.2.2 5 rfl rfl rfl
  exact ⟨h1, (h2 rfl).1⟩

/-- C2: a fault routed through the unified error path while the state is
Cancelling yields Cancelled — never Rejected — and only logs the error as
informational; otherwise it yields Rejected with that error.  In particular
a status applied while Cancelling that reports not running with an error set
yields Cancelled, a successful serialized cancel call leaves the state
Cancelling with the confirmation flag set, and the spec's cancel scenario
run ends Cancelled with no rejection error. -/
theorem C2_cancelling_fault_is_cancelled :
    (∀ (R : Type) (st : ProcState R) (e : Err) (status : Option String),
      st.dstate = .CANCELLING →
      (onError st e status).dstate = .CANCELLED ∧
      (onError st e status).rejectErr = st.rejectErr ∧
      (onError st e status).log = st.log ++ [(e, canceledMessage status)]) ∧
    (∀ (R : Type) (st : ProcState R) (e : Err) (status : Option String),
      st.dstate.isInProgressState = true → st.dstate ≠ .CANCELLING →
      onError st e status = toRejected st e ∧
      (onError st e status).dstate = .REJECTED ∧
      (onError st e status).rejectErr = some e) ∧
    (∀ (R : Type) (st : ProcState R) (t : AsyncTaskInfo R) (m : String),
      st.dstate = .CANCELLING → t.running = false → t.error = some m →
      (applyResult st t).dstate = .CANCELLED ∧
      (applyResult st t).rejectErr = st.rejectErr) ∧
    (∀ (R : Type) (env : Env R) (sched : Nat → Bool) (c : Config R),
      c.st.dstate = .CANCELLING → c.st.isCancelConfirmed = false →
      env.cancelResp c.nCancel = Except.ok () →
      (cancelAsync env sched c).st.dstate = .CANCELLING ∧
      (cancelAsync env sched c).st.isCancelConfirmed = true) ∧
    ((start cancelOkEnv (schedAt 1) 5).st.dstate = EDeferredState.CANCELLED ∧
     (start cancelOkEnv (schedAt 1) 5).st.rejectErr = none ∧
     (start cancelOkEnv (schedAt 1) 5).done = true) := by
  refine ⟨?_, ?_, ?_, ?_, ?_⟩
  · intro R st e status hd
    exact onError_cancelling_spec hd e status
  · intro R st e status hip hd
    refine ⟨onError_of_not_cancelling hd e status, ?_, ?_⟩
    · rw [onError_of_not_cancelling hd e status]
      exact (toRejected_dstate hip e).1
    · rw [onError_of_not_cancelling hd e status]
      exact (toRejected_dstate hip e).2
  · intro R st t m hd hr he
    rw [applyResult_error hr he]
    have h := onError_cancelling_spec hd (Err.serverInternal m) t.status
    exact ⟨h.1, h.2.1⟩
  · intro R env sched c hd hcf hok
    exact cancelAsync_cancelling_ok env sched hd hcf hok
  · refine ⟨?_, ?_, ?_⟩ <;> decide

/-- Witness for C2: a server error reported while Cancelling is turned into
the Cancelled outcome with the error logged, not into a rejection. -/
theorem C2_witness :
    (onError cancellingState (Err.serverInternal "stopped") none).dstate
      = EDeferredState.CANCELLED ∧
    (onError cancellingState (Err.serverInternal "stopped") none).rejectErr
      = none ∧
    (onError cancellingState (Err.serverInternal "stopped") none).log
      = [(Err.serverInternal "stopped", canceledMessage none)] := by
  obtain ⟨h1, h2, h3⟩ := C2_cancelling_fault_is_cancelled.1 Nat cancellingState
    (Err.serverInternal "stopped") none rfl
  exact ⟨h1, h2, h3⟩

/-- C3: the serialized cancel step is a no-op once `isCancelConfirmed`;
otherwise it performs exactly one remote cancel call; on success it sets
`isCancelConfirmed` and leaves the state Cancelling; on a failure while
still Cancelling it rolls back to Pending, leaves the flag unset and logs
the error, and the spec's failed-cancel scenario later resolves normally. -/
theorem C3_serialized_cancel_step :
    (∀ (R : Type) (env : Env R) (sched : Nat → Bool) (c : Config R),
      c.st.isCancelConfirmed = true → cancelAsync env sched c = c) ∧
    (∀ (R : Type) (env : Env R) (sched : Nat → Bool) (c : Config R),
      c.st.isCancelConfirmed = false →
      (cancelAsync env sched c).trace = c.trace ++ [Event.cancelCall] ∧
      (cancelAsync env sched c).nCancel = c.nCancel + 1) ∧
    (∀ (R : Type) (env : Env R) (sched : Nat → Bool) (c : Config R),
      c.st.dstate = .CANCELLING → c.st.isCancelConfirmed = false →
      env.cancelResp c.nCancel = Except.ok () →
      (cancelAsync env sched c).st.dstate = .CANCELLING ∧
      (cancelAsync env sched c).st.isCancelConfirmed = true) ∧
    (∀ (R : Type) (env : Env R) (sched : Nat → Bool) (c : Config R) (e : Err),
      c.st.dstate = .CANCELLING → c.st.isCancelConfirmed = false →
      env.cancelResp c.nCancel = Except.error e →
      (cancelAsync env sched c).st.dstate = .PENDING ∧
      (cancelAsync env sched c).st.isCancelConfirmed = false ∧
      (cancelAsync env sched c).st.log
        = c.st.log ++ [(e, "Failed to cancel async task")]) ∧
    ((start cancelFailEnv (schedAt 1) 5).st.dstate = EDeferredState.RESOLVED ∧
     (start cancelFailEnv (schedAt 1) 5).st.value = some 9 ∧
     (start cancelFailEnv (schedAt 1) 5).st.log
       = [(Err.network "boom", "Failed to cancel async task")]) := by
  refine ⟨?_, ?_, ?_, ?_, ?_⟩
  · intro R env sched c h
    exact cancelAsync_of_confirmed env sched h
  · intro R env sched c h
    exact cancelAsync_trace_of_not_confirmed env sched h
  · intro R env sched c hd hcf hok
    exact cancelAsync_cancelling_ok env sched hd hcf hok
  · intro R env sched c e hd hcf hfail
    exact cancelAsync_cancelling_fail env sched hd hcf hfail
  · refine ⟨?_, ?_, ?_⟩ <;> decide

/-- Witness for C3: a successful remote cancel call from a Cancelling
configuration confirms the cancellation and keeps the state Cancelling. -/
theorem C3_witness :
    (cancelAsync cancelOkEnv noCancelSched cancellingConfig).st.dstate
      = EDeferredState.CANCELLING ∧
    (cancelAsync cancelOkEnv noCancelSched cancellingConfig).st.isCancelConfirmed
      = true :=
  C3_serialized_cancel_step.2.2.1 Nat cancelOkEnv noCancelSched
    cancellingConfig rfl rfl rfl

/-- C4: the public `cancel` is a complete no-op unless the state is Pending;
from Pending its only effects are the transition to Cancelling and the
cancellation of the outstanding delay; an await window (where `cancel` runs)
never changes the trace or the remote-call counters; and Cancelling is only
ever entered from Pending — no status application, error routing or
serialized cancel step produces it. -/
theorem C4_cancel_is_flag_flip :
    (∀ (R : Type) (st : ProcState R), st.dstate ≠ .PENDING → cancel st = st) ∧
    (∀ (R : Type) (st : ProcState R), st.dstate = .PENDING →
      cancel st = { st with dstate := .CANCELLING, timeoutActive := false }) ∧
    (∀ (R : Type) (sched : Nat → Bool) (c : Config R),
      (awaitPoint sched c).trace = c.trace ∧
      (awaitPoint sched c).nCancel = c.nCancel ∧
      (awaitPoint sched c).nStatus = c.nStatus) ∧
    (∀ (R : Type) (st : ProcState R), (cancel st).dstate = .CANCELLING →
      st.dstate = .PENDING ∨ st.dstate = .CANCELLING) ∧
    (∀ (R : Type) (st : ProcState R) (t : AsyncTaskInfo R),
      (applyResult st t).dstate = .CANCELLING → st.dstate = .CANCELLING) ∧
    (∀ (R : Type) (st : ProcState R) (e : Err) (status : Option String),
      (onError st e status).dstate ≠ .CANCELLING) ∧
    (∀ (R : Type) (env : Env R) (sched : Nat → Bool) (c : Config R),
      (cancelAsync env sched c).st.dstate = .CANCELLING →
      c.st.dstate = .PENDING ∨ c.st.dstate = .CANCELLING) := by
  refine ⟨?_, ?_, ?_, ?_, ?_, ?_, ?_⟩
  · intro R st h
    exact cancel_of_not_pending h
  · intro R st h
    rw [cancel_eq, if_pos h]
  · intro R sched c
    exact ⟨rfl, rfl, rfl⟩
  · intro R st h
    exact cancel_dstate_cancelling h
  · intro R st t h
    exact applyResult_cancelling h
  · intro R st e status
    exact onError_dstate_ne_cancelling st e status
  · intro R env sched c h
    exact cancelAsync_dstate_cancelling env sched h

/-- Witness for C4: cancelling a pending Deferred flips only the state and
the delay flag, and cancelling a resolved one changes nothing. -/
theorem C4_witness :
    cancel (initialState : ProcState Nat)
      = { initialState with dstate := .CANCELLING, timeoutActive := false } ∧
    cancel (toResolved (initialState : ProcState Nat) 5)
      = toResolved (initialState : ProcState Nat) 5 := by
  refine ⟨C4_cancel_is_flag_flip.2.1 Nat initialState rfl, ?_⟩
  refine C4_cancel_is_flag_flip.1 Nat (toResolved (initialState : ProcState Nat) 5) ?_
  decide

/-- Remote behaviour of the plain resolve scenario: submit running, `N`
running statuses, then result `r`; cancel requests would succeed. -/
def resolveEnv (N : Nat) (r : Nat) : Env Nat :=
  { submit := Except.ok runningInfo,
    status := fun k => if k < N then Except.ok runningInfo
      else Except.ok (resultInfo r),
    cancelResp := fun _ => Except.ok () }

/-- C5: when the submit response reports running and the first N status
checks report running before the (N+1)-th reports a result, `start` performs
exactly N+1 remote status calls, consecutive status calls are separated by a
backoff delay, and the result transitions to Resolved with that value — for
every cancel schedule. -/
theorem C5_poll_until_result (R : Type) (env : Env R) (sched : Nat → Bool)
    (N : Nat) (r : R) (fuel : Nat) (t0 : AsyncTaskInfo R)
    (hsub : env.submit = Except.ok t0) (h0 : t0.running = true)
    (hrun : ∀ i, i < N → ∃ t, env.status i = Except.ok t ∧ t.running = true)
    (hfin : ∃ t, env.status N = Except.ok t ∧ t.running = false ∧
        t.error = none ∧ t.result = some r)
    (hfuel : N + 1 ≤ fuel) :
    (start env sched fuel).st.dstate = .RESOLVED ∧
    (start env sched fuel).st.value = some r ∧
    (start env sched fuel).nStatus = N + 1 ∧
    countEv Event.statusCall (start env sched fuel).trace = N + 1 ∧
    statusSeparated (start env sched fuel).trace = true ∧
    (start env sched fuel).done = true := by
  rw [start_unfold_ok env sched fuel hsub]
  dsimp only
  rw [applyResult_running h0]
  set c2 : Config R :=
    { awaitPoint sched { (initialConfig : Config R) with trace := [Event.submitCall] } with
      st := { (awaitPoint sched
        { (initialConfig : Config R)
          with trace := [Event.submitCall] }).st with taskId := some t0.id } }
    with hc2def
  have hip2 : c2.st.dstate.isInProgressState = true := start_c1_inProgress sched
  have hip3 := cancelPhase_inProgress env sched (c := c2) hip2
  rw [if_neg (not_finished_of_inProgress hip3)]
  have hdone3 : (cancelPhase env sched c2).done = false := by
    rw [cancelPhase_done]
    exact rfl
  have hns3 : (cancelPhase env sched c2).nStatus = 0 := by
    rw [cancelPhase_nStatus]
    exact rfl
  have hrun' : ∀ i, i < N →
      ∃ t, env.status ((cancelPhase env sched c2).nStatus + i) = Except.ok t ∧
        t.running = true := by
    intro i hi
    rw [hns3]
    simpa using hrun i hi
  have hfin' : ∃ t, env.status ((cancelPhase env sched c2).nStatus + N)
      = Except.ok t ∧ t.running = false ∧ t.error = none ∧ t.result = some r := by
    rw [hns3]
    simpa using hfin
  obtain ⟨g1, g2, g3, g4, ext, hgood, hext⟩ :=
    startLoop_resolves env sched r N (cancelPhase env sched c2) fuel
      hip3 hdone3 hrun' hfin' hfuel
  obtain ⟨pre, hpreeq, hpre2⟩ := cancelPhase_trace_shape env sched c2
  refine ⟨g1, g2, ?_, ?_, ?_, g4⟩
  · rw [g3, hns3]
    omega
  · rw [hext, hpreeq]
    have hc2t : c2.trace = [Event.submitCall] := rfl
    rw [hc2t]
    rcases hpre2 with rfl | rfl <;>
      simp [countEv_append, countEv, goodExt_count hgood]
  · rw [hext, hpreeq]
    have hc2t : c2.trace = [Event.submitCall] := rfl
    rw [hc2t]
    rcases hpre2 with rfl | rfl
    · show statusSepAux false ext = true
      exact goodExt_sep hgood
    · show statusSepAux false ext = true
      exact goodExt_sep hgood

/-- Witness for C5 at N = 2, result 7, no concurrent cancel. -/
theorem C5_witness :
    (start (resolveEnv 2 7) noCancelSched 3).st.dstate
      = EDeferredState.RESOLVED ∧
    (start (resolveEnv 2 7) noCancelSched 3).st.value = some 7 ∧
    (start (resolveEnv 2 7) noCancelSched 3).nStatus = 2 + 1 ∧
    countEv Event.statusCall (start (resolveEnv 2 7) noCancelSched 3).trace
      = 2 + 1 ∧
    statusSeparated (start (resolveEnv 2 7) noCancelSched 3).trace = true ∧
    (start (resolveEnv 2 7) noCancelSched 3).done = true :=
  C5_poll_until_result Nat (resolveEnv 2 7) noCancelSched 2 7 3 runningInfo
    rfl rfl
    (fun i hi => ⟨runningInfo, by simp [resolveEnv, hi], rfl⟩)
    ⟨resultInfo 7, by simp [resolveEnv], rfl, rfl, rfl⟩
    (by decide)

/-- Remote behaviour whose status endpoint fails transiently. -/
def statusFailEnv : Env Nat :=
  { submit := Except.ok runningInfo,
    status := fun _ => Except.error (Err.network "timeout"),
    cancelResp := fun _ => Except.ok () }

/-- A mid-poll configuration whose Deferred is Cancelling and whose remote
cancel call has already been confirmed. -/
def confirmedCancellingConfig : Config Nat :=
  { st := { cancellingState with isCancelConfirmed := true },
    nAwait := 5, nStatus := 1, nCancel := 1,
    trace := [Event.submitCall, Event.statusCall, Event.delay,
      Event.cancelCall],
    done := false }

/-- C6 counterexample: after a failed first cancel request (which rolls the
state back to Pending) a renewed `cancel()` makes the controller issue a
second remote cancel call for the same task identifier — this run performs
two cancel calls and terminates Cancelled. -/
theorem C6_counterexample :
    2 ≤ countEv Event.cancelCall
        (start cancelRetryEnv cancelRetrySched 3).trace ∧
    (start cancelRetryEnv cancelRetrySched 3).done = true ∧
    (start cancelRetryEnv cancelRetrySched 3).st.dstate
      = EDeferredState.CANCELLED := by
  decide

/-- C6 (amended): every remote cancel call is gated by `isCancelConfirmed`
being false; once the flag is set, no further remote cancel call is ever
issued; and when the remote accepts every cancel request — so the failure
rollback that clears the way for a retry cannot occur — at most one remote
cancel call is issued per run, however `cancel()` interleaves. -/
theorem C6_amended_cancel_gating :
    (∀ (R : Type) (env : Env R) (sched : Nat → Bool) (c : Config R),
      c.st.isCancelConfirmed = true → cancelAsync env sched c = c) ∧
    (∀ (R : Type) (env : Env R) (sched : Nat → Bool) (fuel : Nat)
        (c : Config R),
      c.st.isCancelConfirmed = true →
      (startLoop env sched fuel c).nCancel = c.nCancel ∧
      countEv Event.cancelCall (startLoop env sched fuel c).trace
        = countEv Event.cancelCall c.trace) ∧
    (∀ (R : Type) (env : Env R) (sched : Nat → Bool) (fuel : Nat),
      (∀ k, env.cancelResp k = Except.ok ()) →
      countEv Event.cancelCall (start env sched fuel).trace ≤ 1 ∧
      (start env sched fuel).nCancel ≤ 1) := by
  refine ⟨?_, ?_, ?_⟩
  · intro R env sched c h
    exact cancelAsync_of_confirmed env sched h
  · intro R env sched fuel c h
    obtain ⟨h1, _, h3⟩ := startLoop_confirmed env sched fuel c h
    exact ⟨h1, h3⟩
  · intro R env sched fuel hok
    have h1 := start_nCancel_le_one env sched fuel hok
    refine ⟨?_, h1⟩
    rw [start_count_nCancel]
    exact h1

/-- Witness for the amended C6 on the all-cancels-succeed scenario. -/
theorem C6_witness :
    countEv Event.cancelCall (start cancelOkEnv (schedAt 1) 5).trace ≤ 1 ∧
    (start cancelOkEnv (schedAt 1) 5).nCancel ≤ 1 :=
  C6_amended_cancel_gating.2.2 Nat cancelOkEnv (schedAt 1) 5 (fun _ => rfl)

/-- C7: a run of `start` that returns leaves the Deferred in a terminal
state; a transient status-check failure is reported to the logging
collaborator, a cancel-request failure is reported to the logging
collaborator, and logged entries are never dropped (the log only grows). -/
theorem C7_no_silent_error :
    (∀ (R : Type) (env : Env R) (sched : Nat → Bool) (fuel : Nat),
      (start env sched fuel).done = true →
      (start env sched fuel).st.dstate.isFinishedState = true) ∧
    (∀ (R : Type) (env : Env R) (sched : Nat → Bool) (fuel : Nat)
        (c : Config R) (e : Err),
      c.st.dstate.isInProgressState = true →
      env.status c.nStatus = Except.error e →
      (e, "Failed to check async task status")
        ∈ (startLoop env sched (fuel + 1) c).st.log) ∧
    (∀ (R : Type) (env : Env R) (sched : Nat → Bool) (c : Config R) (e : Err),
      c.st.dstate = .CANCELLING → c.st.isCancelConfirmed = false →
      env.cancelResp c.nCancel = Except.error e →
      (e, "Failed to cancel async task") ∈ (cancelAsync env sched c).st.log) ∧
    (∀ (R : Type) (env : Env R) (sched : Nat → Bool) (fuel : Nat)
        (c : Config R),
      ∃ l, (startLoop env sched fuel c).st.log = c.st.log ++ l) := by
  refine ⟨?_, ?_, ?_, ?_⟩
  · intro R env sched fuel h
    exact start_done_imp_finished env sched fuel h
  · intro R env sched fuel c e hip hs
    exact startLoop_statusError_mem env sched fuel hip hs
  · intro R env sched c e hd hcf hfail
    obtain ⟨_, _, hlog⟩ := cancelAsync_cancelling_fail env sched hd hcf hfail
    rw [hlog]
    simp
  · intro R env sched fuel c
    exact startLoop_log_mono env sched fuel c

/-- Witness for C7: the cancel scenario run returns, and its final state is
terminal. -/
theorem C7_witness :
    (start cancelOkEnv (schedAt 1) 5).st.dstate.isFinishedState = true :=
  C7_no_silent_error.1 Nat cancelOkEnv (schedAt 1) 5 (by decide)

/-- C8: a status-check failure never terminates the operation — the error is
logged and the iteration ends with the backoff delay, leaving the Deferred
in progress; while Cancelling (cancel confirmed) the same log-and-continue
path runs and the state stays Cancelling with no cancel call after the
status call; and an unconfirmed Cancelling state re-attempts the serialized
cancel only at the top of an iteration, before the status call. -/
theorem C8_status_failure_continues :
    (∀ (R : Type) (env : Env R) (sched : Nat → Bool) (c : Config R) (e : Err),
      c.st.dstate.isInProgressState = true →
      env.status c.nStatus = Except.error e →
      (loopBody env sched c).done = c.done ∧
      (loopBody env sched c).st.dstate.isInProgressState = true ∧
      (e, "Failed to check async task status") ∈ (loopBody env sched c).st.log ∧
      ∃ pre, (pre = [] ∨ pre = [Event.cancelCall]) ∧
        (loopBody env sched c).trace
          = c.trace ++ (pre ++ [Event.statusCall, Event.delay])) ∧
    (∀ (R : Type) (env : Env R) (sched : Nat → Bool) (c : Config R) (e : Err),
      c.st.dstate = .CANCELLING → c.st.isCancelConfirmed = true →
      env.status c.nStatus = Except.error e →
      (loopBody env sched c).st.dstate = .CANCELLING ∧
      (loopBody env sched c).trace
        = c.trace ++ [Event.statusCall, Event.delay] ∧
      (loopBody env sched c).st.log
        = c.st.log ++ [(e, "Failed to check async task status")]) ∧
    (∀ (R : Type) (env : Env R) (sched : Nat → Bool) (c : Config R),
      c.st.dstate = .CANCELLING → c.st.isCancelConfirmed = false →
      (loopBody env sched c).nCancel = c.nCancel + 1 ∧
      ∃ rest, (loopBody env sched c).trace
        = c.trace ++ (Event.cancelCall :: rest)) := by
  refine ⟨?_, ?_, ?_⟩
  · intro R env sched c e hip hs
    obtain ⟨h1, _, h3, h4, h5⟩ := loopBody_error_spec env sched hip hs
    exact ⟨h3, h1, h4, h5⟩
  · intro R env sched c e hd hcf hs
    exact loopBody_error_cancelling_confirmed env sched hd hcf hs
  · intro R env sched c hd hcf
    exact loopBody_cancelling_retry env sched hd hcf

/-- Witness for C8: a failing status check while Cancelling with the cancel
confirmed logs the error and leaves the state Cancelling. -/
theorem C8_witness :
    (loopBody statusFailEnv noCancelSched confirmedCancellingConfig).st.dstate
      = EDeferredState.CANCELLING ∧
    (loopBody statusFailEnv noCancelSched confirmedCancellingConfig).trace
      = confirmedCancellingConfig.trace ++ [Event.statusCall, Event.delay] ∧
    (loopBody statusFailEnv noCancelSched confirmedCancellingConfig).st.log
      = confirmedCancellingConfig.st.log
        ++ [(Err.network "timeout", "Failed to check async task status")] :=
  C8_status_failure_continues.2.1 Nat statusFailEnv noCancelSched
    confirmedCancellingConfig (Err.network "timeout") rfl rfl rfl

/-- Helper for C9: with a cancel during the submit await and a submit
response that reports not running, the run terminates directly from the
submit response with no further remote calls. -/
theorem start_submit_terminal (env : Env R) (sched : Nat → Bool) (fuel : Nat)
    {t0 : AsyncTaskInfo R} (hsub : env.submit = Except.ok t0)
    (hc : sched 0 = true)
    (hfin : (applyResult (cancel (initialState : ProcState R))
      t0).dstate.isFinishedState = true)
    (hnc : (applyResult (cancel (initialState : ProcState R))
      t0).dstate ≠ .CANCELLING) :
    (start env sched fuel).trace = [Event.submitCall] ∧
    (start env sched fuel).done = true ∧
    (start env sched fuel).st.dstate
      = (applyResult (cancel (initialState : ProcState R)) t0).dstate ∧
    (start env sched fuel).st.value
      = (applyResult (cancel (initialState : ProcState R)) t0).value := by
  rw [start_unfold_ok env sched fuel hsub]
  dsimp only
  have hc1 : (awaitPoint sched
      { (initialConfig : Config R) with trace := [Event.submitCall] }).st
      = cancel initialState := by
    rw [start_c1_st, hc]
    simp
  rw [hc1]
  set c2 : Config R :=
    { awaitPoint sched { (initialConfig : Config R) with trace := [Event.submitCall] } with
      st := { (applyResult (cancel initialState) t0) with taskId := some t0.id } }
    with hc2def
  have hnc2 : ¬(c2.st.dstate = .CANCELLING) := hnc
  have hcp : cancelPhase env sched c2 = c2 := by
    unfold cancelPhase
    rw [if_neg hnc2]
  rw [hcp]
  have hfin2 : c2.st.dstate.isFinishedState = true := hfin
  rw [if_pos hfin2]
  exact ⟨rfl, rfl, rfl, rfl⟩

/-- C9: the submit status is applied before the post-submit Cancelling
check, so when the user cancelled during submission and the submit response
reports not running, the run reaches its terminal state directly from the
submit response — Cancelled when the response carries an error or lacks a
result, Resolved with the value when it carries a result — and no status
call and no remote cancel call is ever issued. -/
theorem C9_cancel_during_submit (R : Type) (env : Env R) (sched : Nat → Bool)
    (fuel : Nat) (t0 : AsyncTaskInfo R) (hc : sched 0 = true)
    (hsub : env.submit = Except.ok t0) (hr : t0.running = false) :
    (start env sched fuel).trace = [Event.submitCall] ∧
    (start env sched fuel).done = true ∧
    countEv Event.cancelCall (start env sched fuel).trace = 0 ∧
    countEv Event.statusCall (start env sched fuel).trace = 0 ∧
    (∀ m, t0.error = some m →
      (start env sched fuel).st.dstate = .CANCELLED) ∧
    (t0.error = none → t0.result = none →
      (start env sched fuel).st.dstate = .CANCELLED) ∧
    (∀ r, t0.error = none → t0.result = some r →
      (start env sched fuel).st.dstate = .RESOLVED ∧
      (start env sched fuel).st.value = some r) := by
  have hcd : (cancel (initialState : ProcState R)).dstate = .CANCELLING := by
    rw [cancel_eq,
      if_pos (show (initialState : ProcState R).dstate = .PENDING from rfl)]
  have hcip : (cancel (initialState : ProcState R)).dstate.isInProgressState
      = true := by
    rw [hcd]
    rfl
  have hterm : (applyResult (cancel (initialState : ProcState R))
        t0).dstate.isFinishedState = true ∧
      (applyResult (cancel (initialState : ProcState R))
        t0).dstate ≠ .CANCELLING := by
    rcases he : t0.error with _ | m
    · rcases hres : t0.result with _ | r
      · rw [applyResult_noResult hr he hres,
          (onError_cancelling_spec hcd Err.noResult t0.status).1]
        exact ⟨rfl, by intro hx; cases hx⟩
      · rw [applyResult_resolve hr he hres, (toResolved_dstate hcip r).1]
        exact ⟨rfl, by intro hx; cases hx⟩
    · rw [applyResult_error hr he,
        (onError_cancelling_spec hcd (Err.serverInternal m) t0.status).1]
      exact ⟨rfl, by intro hx; cases hx⟩
  obtain ⟨ht, hdn, hds, hvl⟩ :=
    start_submit_terminal env sched fuel hsub hc hterm.1 hterm.2
  refine ⟨ht, hdn, by rw [ht]; rfl, by rw [ht]; rfl, ?_, ?_, ?_⟩
  · intro m he
    rw [hds, applyResult_error hr he]
    exact (onError_cancelling_spec hcd (Err.serverInternal m) t0.status).1
  · intro he hres
    rw [hds, applyResult_noResult hr he hres]
    exact (onError_cancelling_spec hcd Err.noResult t0.status).1
  · intro r he hres
    constructor
    · rw [hds, applyResult_resolve hr he hres]
      exact (toResolved_dstate hcip r).1
    · rw [hvl, applyResult_resolve hr he hres]
      exact (toResolved_dstate hcip r).2

/-- Submit response that already carries result 3; the user cancels during
the submit await. -/
def fastResultEnv : Env Nat :=
  { submit := Except.ok (resultInfo 3),
    status := fun _ => Except.error (Err.network "unused"),
    cancelResp := fun _ => Except.ok () }

/-- Witness for C9: cancel during submission, submit response carries a
result — the run resolves with no status and no cancel call. -/
theorem C9_witness :
    (start fastResultEnv (schedAt 0) 5).trace = [Event.submitCall] ∧
    (start fastResultEnv (schedAt 0) 5).st.dstate
      = EDeferredState.RESOLVED ∧
    (start fastResultEnv (schedAt 0) 5).st.value = some 3 := by
  obtain ⟨h1, _, _, _, _, _, h7⟩ := C9_cancel_during_submit Nat fastResultEnv
    (schedAt 0) 5 (resultInfo 3) rfl rfl rfl
  obtain ⟨h8, h9⟩ := h7 3 rfl rfl
  exact ⟨h1, h8, h9⟩

/-- C10: once `isCancelConfirmed` is set, the serialized cancel step is a
no-op, so its Cancelling-to-Pending rollback — the only site producing
Pending again — is unreachable; no status application and no `cancel()`
invocation can produce Pending from a non-Pending state; and one loop
iteration as well as the whole poll loop preserve "confirmed and not
Pending". -/
theorem C10_no_pending_after_confirm :
    (∀ (R : Type) (env : Env R) (sched : Nat → Bool) (c : Config R),
      c.st.isCancelConfirmed = true → cancelAsync env sched c = c) ∧
    (∀ (R : Type) (st : ProcState R) (t : AsyncTaskInfo R),
      (applyResult st t).dstate = .PENDING → st.dstate = .PENDING) ∧
    (∀ (R : Type) (st : ProcState R), (cancel st).dstate ≠ .PENDING) ∧
    (∀ (R : Type) (env : Env R) (sched : Nat → Bool) (c : Config R),
      c.st.isCancelConfirmed = true → c.st.dstate ≠ .PENDING →
      (loopBody env sched c).st.isCancelConfirmed = true ∧
      (loopBody env sched c).st.dstate ≠ .PENDING) ∧
    (∀ (R : Type) (env : Env R) (sched : Nat → Bool) (fuel : Nat)
        (c : Config R),
      c.st.isCancelConfirmed = true → c.st.dstate ≠ .PENDING →
      (startLoop env sched fuel c).st.isCancelConfirmed = true ∧
      (startLoop env sched fuel c).st.dstate ≠ .PENDING) := by
  refine ⟨?_, ?_, ?_, ?_, ?_⟩
  · intro R env sched c h
    exact cancelAsync_of_confirmed env sched h
  · intro R st t h
    exact applyResult_pending h
  · intro R st
    exact cancel_dstate_ne_pending st
  · intro R env sched c h hnp
    exact loopBody_confirmed_not_pending env sched h hnp
  · intro R env sched fuel c h hnp
    exact startLoop_confirmed_not_pending env sched fuel c h hnp

/-- Witness for C10: a confirmed Cancelling configuration stays confirmed
and never returns to Pending across a loop iteration. -/
theorem C10_witness :
    (loopBody statusFailEnv noCancelSched
      confirmedCancellingConfig).st.isCancelConfirmed = true ∧
    (loopBody statusFailEnv noCancelSched
      confirmedCancellingConfig).st.dstate ≠ EDeferredState.PENDING :=
  C10_no_pending_after_confirm.2.2.2.1 Nat statusFailEnv noCancelSched
    confirmedCancellingConfig rfl (by decide)

end SQLQueryExecutionProcess
